import Mathlib

/-! MaxScale: binlog decoding core and Avro schema reader.

A shallow embedding of `server/core/mysql_binlog.c` and `avro/maxavro_schema.c`.

Conventions of the embedding

* A byte is a `Nat` below 256 and a buffer (`uint8_t *`) is the list of the bytes that can
  be read from the pointer on; reading past the end of that list is undefined behaviour in
  C and is `none` here.
* `memcpy` into an integer is evaluated for a little-endian host.
* Allocation (`malloc`, `strdup`, `realloc`) succeeds.
* `int` has 32 bits; converting a value that `int` cannot hold keeps its low 32 bits, read
  in two's complement.
* Where a function can abort or run into undefined behaviour its result is an `Option`
  and `none` stands for that.
-/

namespace MaxScale

/-! ## Bytes and integers -/

/-- Little-endian value of a run of bytes: what `memcpy(&x, ptr, n)` leaves in a zeroed
unsigned integer `x` on a little-endian host. -/
def le_value : List Nat → Nat
  | [] => 0
  | b :: bs => b + 256 * le_value bs

/-- The `k` low bytes of `n`, least significant first. -/
def le_bytes : Nat → Nat → List Nat
  | 0, _ => []
  | k + 1, n => n % 256 :: le_bytes k (n / 256)

/-- Read `n` bytes at the pointer and advance it (`memcpy(dst, ptr, n); ptr += n`). -/
def readBytes (ptr : List Nat) (n : Nat) : Option (List Nat × List Nat) :=
  if n ≤ ptr.length then some (ptr.take n, ptr.drop n) else none

/-- The C string stored in a character array: the bytes before the first NUL. When the
array holds no NUL the read runs off its initialised part. -/
def c_string (buf : List Nat) : Option (List Nat) :=
  if 0 ∈ buf then some (buf.takeWhile (fun b => b != 0)) else none

/-- Modelled from the spec: `leint_value` of `mysql_utils.c`, which is not among the
sources. It decodes a length-encoded integer: a marker byte below 0xFB is the value itself,
the markers 0xFC, 0xFD and 0xFE of the MySQL wire protocol announce a following
little-endian integer of 2, 3 and 8 bytes. The markers 0xFB and 0xFF do not start a
length-encoded integer. -/
def leint_value (ptr : List Nat) : Option Nat :=
  match ptr with
  | [] => none
  | c :: rest =>
    if c < 0xfb then some c
    else if c = 0xfc then (readBytes rest 2).map (fun r => le_value r.1)
    else if c = 0xfd then (readBytes rest 3).map (fun r => le_value r.1)
    else if c = 0xfe then (readBytes rest 8).map (fun r => le_value r.1)
    else none

/-- Modelled from the spec: `leint_bytes` of `mysql_utils.c`, which is not among the
sources. It gives the size of the length-encoded integer at the pointer: the 1, 3, 4 or
9-byte form selected by the marker byte. -/
def leint_bytes (ptr : List Nat) : Option Nat :=
  match ptr with
  | [] => none
  | c :: _ =>
    if c < 0xfb then some 1
    else if c = 0xfc then some 3
    else if c = 0xfd then some 4
    else if c = 0xfe then some 9
    else none

/-- The encodings of `n` as a length-encoded integer: `e` is one of the four forms and
carries the value `n`. -/
def is_leint (e : List Nat) (n : Nat) : Prop :=
  (n < 0xfb ∧ e = [n]) ∨ (n < 256 ^ 2 ∧ e = 0xfc :: le_bytes 2 n) ∨
  (n < 256 ^ 3 ∧ e = 0xfd :: le_bytes 3 n) ∨ (n < 256 ^ 8 ∧ e = 0xfe :: le_bytes 8 n)

/-! ## printf-style formatting -/

/-- Decimal digits of a natural number, zero-padded on the left to `width` characters. -/
def pad_decimal (width n : Nat) : List Char :=
  let ds := Nat.toDigits 10 n
  List.replicate (width - ds.length) '0' ++ ds

/-- Output of the conversion `%06d` for an `int`. -/
def fmt_06d (v : Int) : List Char :=
  if v < 0 then '-' :: pad_decimal 5 v.natAbs else pad_decimal 6 v.natAbs

/-- The string left by `snprintf(buf, size, "%06d", v)`: the output cut to `size - 1`
characters. -/
def snprintf_06d (size : Nat) (v : Int) : List Char :=
  (fmt_06d v).take (size - 1)

/-! ## Table map events -/

/-- The fields of `TABLE_MAP` that the functions of `mysql_binlog.c` set. -/
structure TABLE_MAP where
  id : Nat
  version : Int
  version_string : List Char
  flags : Nat
  columns : Nat
  column_types : List Nat
  database : List Nat
  table : List Nat
deriving DecidableEq

/-- Embedding of `table_map_alloc`. The size of the member `version_string` is declared in
`mysql_binlog.h`, which is not among the sources, and is the parameter
`version_string_size`. -/
def table_map_alloc (version_string_size : Nat) (ptr : List Nat) (post_header_len : Nat) :
    Option TABLE_MAP :=
  let id_size := if post_header_len = 6 then 4 else 6
  match readBytes ptr id_size with
  | none => none
  | some (id_bytes, ptr) =>
  let table_id := le_value id_bytes
  match readBytes ptr 2 with
  | none => none
  | some (flag_bytes, ptr) =>
  let flags := le_value flag_bytes
  match ptr with
  | [] => none
  | schema_name_len :: ptr =>
  match readBytes ptr (schema_name_len + 1) with
  | none => none
  | some (schema_name, ptr) =>
  match ptr with
  | [] => none
  | table_name_len :: ptr =>
  match readBytes ptr (table_name_len + 1) with
  | none => none
  | some (table_name, ptr) =>
  match leint_value ptr, leint_bytes ptr with
  | some column_count, some sz =>
    let column_types := ptr.drop sz
    match c_string schema_name, c_string table_name, readBytes column_types column_count with
    | some database, some table, some (types, _) =>
      some { id := table_id
             version := 1
             version_string := snprintf_06d version_string_size 1
             flags := flags
             columns := column_count
             column_types := types
             database := database
             table := table }
    | _, _, _ => none
  | _, _ => none

/-- The largest `int`. -/
def INT_MAX : Int := 2 ^ 31 - 1

/-- Embedding of `table_map_rotate`: the map after the call. The member `version` is an
`int`, printed with `%06d`; incrementing `INT_MAX` is undefined behaviour (`none`). The
size of `version_string` is the parameter `version_string_size`, as in `table_map_alloc`. -/
def table_map_rotate (version_string_size : Nat) (map : TABLE_MAP) : Option TABLE_MAP :=
  if map.version < INT_MAX then
    some { map with
      version := map.version + 1
      version_string := snprintf_06d version_string_size (map.version + 1) }
  else none

/-! ## Column type codes -/

/-- Modelled from the spec: the `TABLE_COL_TYPE_*` macros of `mysql_binlog.h`, which is not
among the sources. The spec calls them the wire-level MySQL column type codes; these are
the values the MySQL protocol assigns. -/
def TABLE_COL_TYPE_DECIMAL : Nat := 0x00
/-- Modelled from the spec: wire code of TINY, see `TABLE_COL_TYPE_DECIMAL`. -/
def TABLE_COL_TYPE_TINY : Nat := 0x01
/-- Modelled from the spec: wire code of SHORT, see `TABLE_COL_TYPE_DECIMAL`. -/
def TABLE_COL_TYPE_SHORT : Nat := 0x02
/-- Modelled from the spec: wire code of LONG, see `TABLE_COL_TYPE_DECIMAL`. -/
def TABLE_COL_TYPE_LONG : Nat := 0x03
/-- Modelled from the spec: wire code of FLOAT, see `TABLE_COL_TYPE_DECIMAL`. -/
def TABLE_COL_TYPE_FLOAT : Nat := 0x04
/-- Modelled from the spec: wire code of DOUBLE, see `TABLE_COL_TYPE_DECIMAL`. -/
def TABLE_COL_TYPE_DOUBLE : Nat := 0x05
/-- Modelled from the spec: wire code of NULL, see `TABLE_COL_TYPE_DECIMAL`. -/
def TABLE_COL_TYPE_NULL : Nat := 0x06
/-- Modelled from the spec: wire code of TIMESTAMP, see `TABLE_COL_TYPE_DECIMAL`. -/
def TABLE_COL_TYPE_TIMESTAMP : Nat := 0x07
/-- Modelled from the spec: wire code of LONGLONG, see `TABLE_COL_TYPE_DECIMAL`. -/
def TABLE_COL_TYPE_LONGLONG : Nat := 0x08
/-- Modelled from the spec: wire code of INT24, see `TABLE_COL_TYPE_DECIMAL`. -/
def TABLE_COL_TYPE_INT24 : Nat := 0x09
/-- Modelled from the spec: wire code of DATE, see `TABLE_COL_TYPE_DECIMAL`. -/
def TABLE_COL_TYPE_DATE : Nat := 0x0a
/-- Modelled from the spec: wire code of TIME, see `TABLE_COL_TYPE_DECIMAL`. -/
def TABLE_COL_TYPE_TIME : Nat := 0x0b
/-- Modelled from the spec: wire code of DATETIME, see `TABLE_COL_TYPE_DECIMAL`. -/
def TABLE_COL_TYPE_DATETIME : Nat := 0x0c
/-- Modelled from the spec: wire code of YEAR, see `TABLE_COL_TYPE_DECIMAL`. -/
def TABLE_COL_TYPE_YEAR : Nat := 0x0d
/-- Modelled from the spec: wire code of NEWDATE, see `TABLE_COL_TYPE_DECIMAL`. -/
def TABLE_COL_TYPE_NEWDATE : Nat := 0x0e
/-- Modelled from the spec: wire code of VARCHAR, see `TABLE_COL_TYPE_DECIMAL`. -/
def TABLE_COL_TYPE_VARCHAR : Nat := 0x0f
/-- Modelled from the spec: wire code of BIT, see `TABLE_COL_TYPE_DECIMAL`. -/
def TABLE_COL_TYPE_BIT : Nat := 0x10
/-- Modelled from the spec: wire code of TIMESTAMP2, see `TABLE_COL_TYPE_DECIMAL`. -/
def TABLE_COL_TYPE_TIMESTAMP2 : Nat := 0x11
/-- Modelled from the spec: wire code of DATETIME2, see `TABLE_COL_TYPE_DECIMAL`. -/
def TABLE_COL_TYPE_DATETIME2 : Nat := 0x12
/-- Modelled from the spec: wire code of TIME2, see `TABLE_COL_TYPE_DECIMAL`. -/
def TABLE_COL_TYPE_TIME2 : Nat := 0x13
/-- Modelled from the spec: wire code of NEWDECIMAL, see `TABLE_COL_TYPE_DECIMAL`. -/
def TABLE_COL_TYPE_NEWDECIMAL : Nat := 0xf6
/-- Modelled from the spec: wire code of ENUM, see `TABLE_COL_TYPE_DECIMAL`. -/
def TABLE_COL_TYPE_ENUM : Nat := 0xf7
/-- Modelled from the spec: wire code of SET, see `TABLE_COL_TYPE_DECIMAL`. -/
def TABLE_COL_TYPE_SET : Nat := 0xf8
/-- Modelled from the spec: wire code of TINY_BLOB, see `TABLE_COL_TYPE_DECIMAL`. -/
def TABLE_COL_TYPE_TINY_BLOB : Nat := 0xf9
/-- Modelled from the spec: wire code of MEDIUM_BLOB, see `TABLE_COL_TYPE_DECIMAL`. -/
def TABLE_COL_TYPE_MEDIUM_BLOB : Nat := 0xfa
/-- Modelled from the spec: wire code of LONG_BLOB, see `TABLE_COL_TYPE_DECIMAL`. -/
def TABLE_COL_TYPE_LONG_BLOB : Nat := 0xfb
/-- Modelled from the spec: wire code of BLOB, see `TABLE_COL_TYPE_DECIMAL`. -/
def TABLE_COL_TYPE_BLOB : Nat := 0xfc
/-- Modelled from the spec: wire code of VAR_STRING, see `TABLE_COL_TYPE_DECIMAL`. -/
def TABLE_COL_TYPE_VAR_STRING : Nat := 0xfd
/-- Modelled from the spec: wire code of STRING, see `TABLE_COL_TYPE_DECIMAL`. -/
def TABLE_COL_TYPE_STRING : Nat := 0xfe
/-- Modelled from the spec: wire code of GEOMETRY, see `TABLE_COL_TYPE_DECIMAL`. -/
def TABLE_COL_TYPE_GEOMETRY : Nat := 0xff

/-- Embedding of `column_is_string_type`. -/
def column_is_string_type (type : Nat) : Bool :=
  if type = TABLE_COL_TYPE_DECIMAL ∨ type = TABLE_COL_TYPE_VARCHAR ∨ type = TABLE_COL_TYPE_BIT ∨
     type = TABLE_COL_TYPE_NEWDECIMAL ∨ type = TABLE_COL_TYPE_ENUM ∨ type = TABLE_COL_TYPE_SET ∨
     type = TABLE_COL_TYPE_TINY_BLOB ∨ type = TABLE_COL_TYPE_MEDIUM_BLOB ∨
     type = TABLE_COL_TYPE_LONG_BLOB ∨ type = TABLE_COL_TYPE_BLOB ∨
     type = TABLE_COL_TYPE_VAR_STRING ∨ type = TABLE_COL_TYPE_STRING ∨
     type = TABLE_COL_TYPE_GEOMETRY
  then true else false

/-! ## Temporal values -/

/-- Conversion of an unsigned value to `uint32_t`. -/
def to_uint32 (x : Nat) : Nat := x % 2 ^ 32

/-- Conversion of an unsigned value to `int` (32 bits, two's complement): the low 32 bits,
read as signed. -/
def to_int (x : Nat) : Int :=
  if x % 2 ^ 32 < 2 ^ 31 then (x % 2 ^ 32 : Nat) else ((x % 2 ^ 32 : Nat) : Int) - 2 ^ 32

/-- Subtraction in an unsigned type of `bits` bits. -/
def usub (bits a b : Nat) : Nat := (a + 2 ^ bits - b % 2 ^ bits) % 2 ^ bits

/-- The members of `struct tm` the C standard names. -/
structure Tm where
  tm_sec : Int
  tm_min : Int
  tm_hour : Int
  tm_mday : Int
  tm_mon : Int
  tm_year : Int
  tm_wday : Int
  tm_yday : Int
  tm_isdst : Int
deriving DecidableEq

/-- A `struct tm` after `memset(dest, 0, sizeof(struct tm))`. -/
def tm_zero : Tm :=
  { tm_sec := 0, tm_min := 0, tm_hour := 0, tm_mday := 0, tm_mon := 0, tm_year := 0,
    tm_wday := 0, tm_yday := 0, tm_isdst := 0 }

/-- Embedding of `unpack_datetime`; `val` is a `uint64_t`. -/
def unpack_datetime (val : Nat) : Tm :=
  let second := to_uint32 (val - (val / 100) * 100)
  let val := val / 100
  let minute := to_uint32 (val - (val / 100) * 100)
  let val := val / 100
  let hour := to_uint32 (val - (val / 100) * 100)
  let val := val / 100
  let day := to_uint32 (val - (val / 100) * 100)
  let val := val / 100
  let month := to_uint32 (val - (val / 100) * 100)
  let val := val / 100
  let year := to_uint32 val
  { tm_zero with
    tm_year := to_int (usub 32 year 1900)
    tm_mon := to_int month
    tm_mday := to_int day
    tm_hour := to_int hour
    tm_min := to_int minute
    tm_sec := to_int second }

/-- Embedding of `unpack_time`; `val` is a `uint64_t`. -/
def unpack_time (val : Nat) : Tm :=
  let second := to_uint32 (val - (val / 100) * 100)
  let val := val / 100
  let minute := to_uint32 (val - (val / 100) * 100)
  let val := val / 100
  let hour := to_uint32 val
  { tm_zero with
    tm_hour := to_int hour
    tm_min := to_int minute
    tm_sec := to_int second }

/-- Embedding of `unpack_date`; `val` is a `uint64_t`. -/
def unpack_date (val : Nat) : Tm :=
  { tm_zero with
    tm_mday := to_int (val &&& 31)
    tm_mon := to_int ((val >>> 5) &&& 15)
    tm_year := to_int (usub 64 (val >>> 9) 1900) }

/-- Embedding of `is_temporal_value`. -/
def is_temporal_value (type : Nat) : Bool :=
  type = TABLE_COL_TYPE_DATETIME || type = TABLE_COL_TYPE_DATE ||
  type = TABLE_COL_TYPE_TIMESTAMP || type = TABLE_COL_TYPE_TIME

/-- Embedding of `unpack_temporal_value`: the `struct tm` behind the pointer after the
call, given the one before it. The switch has no default: other types leave it as it was. -/
def unpack_temporal_value (type : Nat) (val : Nat) (tm : Tm) : Tm :=
  if type = TABLE_COL_TYPE_DATETIME then unpack_datetime val
  else if type = TABLE_COL_TYPE_TIME then unpack_time val
  else if type = TABLE_COL_TYPE_DATE then unpack_date val
  else if type = TABLE_COL_TYPE_TIMESTAMP then tm_zero
  else tm

/-- Decimal form of an `int`, zero-padded to `width` digits. -/
def fmt_decimal (width : Nat) (v : Int) : List Char :=
  if v < 0 then '-' :: pad_decimal width v.natAbs else pad_decimal width v.natAbs

/-- One conversion specification of the C library function `strftime` in the C locale, for
the specifiers `mysql_binlog.c` uses. `%m` prints `tm_mon + 1`, as `tm_mon` counts months
since January. The output is unspecified (`none`) when the member is outside its
normal range. -/
def strftime_conversion (c : Char) (tm : Tm) : Option (List Char) :=
  if c = 'Y' then some (fmt_decimal 1 (tm.tm_year + 1900))
  else if c = 'm' then
    if 0 ≤ tm.tm_mon ∧ tm.tm_mon ≤ 11 then some (fmt_decimal 2 (tm.tm_mon + 1)) else none
  else if c = 'd' then
    if 1 ≤ tm.tm_mday ∧ tm.tm_mday ≤ 31 then some (fmt_decimal 2 tm.tm_mday) else none
  else if c = 'H' then
    if 0 ≤ tm.tm_hour ∧ tm.tm_hour ≤ 23 then some (fmt_decimal 2 tm.tm_hour) else none
  else if c = 'M' then
    if 0 ≤ tm.tm_min ∧ tm.tm_min ≤ 59 then some (fmt_decimal 2 tm.tm_min) else none
  else if c = 'S' then
    if 0 ≤ tm.tm_sec ∧ tm.tm_sec ≤ 60 then some (fmt_decimal 2 tm.tm_sec) else none
  else none

/-- Expansion of a `strftime` format. -/
def strftime_expand : List Char → Tm → Option (List Char)
  | [], _ => some []
  | '%' :: c :: rest, tm =>
    match strftime_conversion c tm, strftime_expand rest tm with
    | some a, some b => some (a ++ b)
    | _, _ => none
  | c :: rest, tm => (strftime_expand rest tm).map (fun b => c :: b)

/-- The C library function `strftime(str, size, format, tm)`: the string stored in `str`.
When the result and its terminator do not fit `size` the contents are indeterminate. -/
def strftime (size : Nat) (format : List Char) (tm : Tm) : Option (List Char) :=
  match strftime_expand format tm with
  | some out => if out.length + 1 ≤ size then some out else none
  | none => none

/-- Embedding of `format_temporal_value`: the string stored in `str`. `ss_debug` tells
whether the build defines `SS_DEBUG`, in which case `ss_dassert(false)` aborts. -/
def format_temporal_value (ss_debug : Bool) (size : Nat) (type : Nat) (tm : Tm) :
    Option (List Char) :=
  if type = TABLE_COL_TYPE_DATETIME then strftime size "%Y-%m-%d %H:%M:%S".toList tm
  else if type = TABLE_COL_TYPE_TIME then strftime size "%H:%M:%S".toList tm
  else if type = TABLE_COL_TYPE_DATE then strftime size "%Y-%m-%d".toList tm
  else if type = TABLE_COL_TYPE_TIMESTAMP then strftime size [] tm
  else if ss_debug then none
  else strftime size [] tm

/-! ## Field values of a row event -/

/-- The value of a `uint64_t` holding `old` after `memcpy(val, ptr, n)`: its first `n`
bytes are replaced by those of `src`, the others stay. -/
def memcpy_uint64 (old : Nat) (src : List Nat) (n : Nat) : Nat :=
  le_value (src.take n ++ (le_bytes 8 old).drop n)

/-- Embedding of `extract_field_value`: the returned byte count and the content of `*val`
after the call, given its content `val` before the call. -/
def extract_field_value (ptr : List Nat) (type : Nat) (val : Nat) : Option (Nat × Nat) :=
  let copy (n : Nat) : Option (Nat × Nat) :=
    if n ≤ ptr.length then some (n, memcpy_uint64 val ptr n) else none
  if type = TABLE_COL_TYPE_LONG ∨ type = TABLE_COL_TYPE_INT24 ∨ type = TABLE_COL_TYPE_FLOAT then
    copy 4
  else if type = TABLE_COL_TYPE_LONGLONG ∨ type = TABLE_COL_TYPE_DOUBLE then copy 8
  else if type = TABLE_COL_TYPE_SHORT ∨ type = TABLE_COL_TYPE_YEAR then copy 2
  else if type = TABLE_COL_TYPE_TINY then copy 1
  else if type = TABLE_COL_TYPE_DATETIME then copy 8
  else if type = TABLE_COL_TYPE_TIME ∨ type = TABLE_COL_TYPE_DATE then copy 3
  else if type = TABLE_COL_TYPE_TIMESTAMP then copy 4
  else some (0, val)

/-! ## CREATE TABLE statements

A C string is the list of its characters before the terminating NUL. -/

/-- The backtick character. -/
def backtick : Char := Char.ofNat 96

/-- The C library function `isspace` in the C locale: space, horizontal tab, newline,
vertical tab, form feed and carriage return. -/
def isspace (c : Char) : Bool :=
  c = ' ' || c = Char.ofNat 9 || c = Char.ofNat 10 || c = Char.ofNat 11 || c = Char.ofNat 12 ||
    c = Char.ofNat 13

/-- The C library function `strchr(s, c)` for a character `c` other than NUL: the string
from the first occurrence of `c` on, `none` for the null pointer. -/
def strchr : List Char → Char → Option (List Char)
  | [], _ => none
  | x :: xs, c => if x = c then some (x :: xs) else strchr xs c

/-- The inner loop of `get_table_definition`: the number of characters before the one at
which `depth` becomes negative, counted from `k`. -/
def scan_definition : List Char → Int → Nat → Option Nat
  | [], _, _ => none
  | c :: rest, depth, k =>
    let depth := if c = '(' then depth + 1 else if c = ')' then depth - 1 else depth
    if depth < 0 then some k else scan_definition rest depth (k + 1)

/-- Embedding of `get_table_definition`: `none` for the null pointer, otherwise the offset
in `sql` of the returned pointer and the value stored in `*size`. The comparison
`ptr < end - 2` is evaluated on addresses. -/
def get_table_definition (sql : List Char) : Option (Nat × Nat) :=
  let ptr := (sql.takeWhile (fun c => c != '(')).length
  if (ptr : Int) < (sql.length : Int) - 2 then
    let start := ptr + 1
    match scan_definition (sql.drop start) 0 0 with
    | some size => some (start, size)
    | none => none
  else none

/-- Embedding of `get_table_name` for a destination buffer of `dest_size` bytes: the outer
`none` is undefined behaviour (the backward scans leave the statement, or the name and its
terminator do not fit the buffer), `some none` is the result `false`, which leaves the
buffer as it was, and `some (some name)` is the result `true` with `name` in the buffer. -/
def get_table_name (dest_size : Nat) (sql : List Char) : Option (Option (List Char)) :=
  match strchr sql '(' with
  | none => some none
  | some _ =>
    let before := (sql.takeWhile (fun c => c != '(')).reverse
    let skipped := before.dropWhile (fun c => c = backtick || isspace c)
    match skipped with
    | [] => none
    | _ :: _ =>
      let name := (skipped.takeWhile (fun c => !(c = backtick || c = '.' || isspace c))).reverse
      if name.length = skipped.length then none
      else if dest_size < name.length + 1 then none
      else some (some name)

/-- The fields of `TABLE_CREATE`. -/
structure TABLE_CREATE where
  column_names : List (List Char)
  columns : Nat
  database : List Char
  table : List Char
  gtid : List Char
deriving DecidableEq

/-- The `while (nameptr)` loop of `table_create_alloc`, entered with a non-null `nameptr`
and the names collected so far. Every round moves `nameptr` behind a comma, so that
`fuel` above the length of the string is never used up. The outer `none` is undefined
behaviour: a name that does not fit `colname`. -/
def column_names_loop : Nat → List Char → List (List Char) → Option (List (List Char))
  | 0, _, _ => none
  | fuel + 1, nameptr, names =>
    let nameptr := nameptr.dropWhile isspace
    let collected : Option (List (List Char)) :=
      match strchr nameptr ' ' with
      | some _ =>
        let colname := nameptr.takeWhile (fun c => c != ' ')
        if 64 < colname.length then none else some (names ++ [colname])
      | none => some names
    match collected with
    | none => none
    | some names =>
      match strchr nameptr ',' with
      | some rest => column_names_loop fuel (rest.drop 1) names
      | none => some names

/-- Embedding of `table_create_alloc`. `MYSQL_TABLE_MAXLEN`, the size of the buffer for the
table name, is defined in a header that is not among the sources and is a parameter. The
outer `none` is undefined behaviour, `some none` is the result `NULL`. -/
def table_create_alloc (MYSQL_TABLE_MAXLEN : Nat) (sql db : List Char) :
    Option (Option TABLE_CREATE) :=
  let statement_sql := get_table_definition sql
  match get_table_name MYSQL_TABLE_MAXLEN sql with
  | none => none
  | some table =>
    let collected : Option (List (List Char)) :=
      match statement_sql with
      | some (start, _) => column_names_loop (sql.length + 1) (sql.drop start) []
      | none => some []
    match collected with
    | none => none
    | some names =>
      if 0 < names.length then
        match table with
        | some table =>
          some (some { column_names := names
                       columns := names.length
                       database := db
                       table := table
                       gtid := [] })
        | none => none
      else some none

/-! ## Avro schemas -/

/-- A JSON value as the library jansson represents it; the members of an object are looked
up by key. -/
inductive Json where
  | null : Json
  | true : Json
  | false : Json
  | integer (value : Int) : Json
  | real (text : String) : Json
  | string (value : String) : Json
  | array (elements : List Json) : Json
  | object (members : List (String × Json)) : Json

/-- The jansson macro `json_is_object`. -/
def json_is_object : Json → Bool
  | .object _ => Bool.true
  | _ => Bool.false

/-- The jansson macro `json_is_array`, also applied to a null pointer. -/
def json_is_array : Option Json → Bool
  | some (.array _) => Bool.true
  | _ => Bool.false

/-- The jansson function `json_array_get`: `none` is the null pointer. -/
def json_array_get (json : Option Json) (index : Nat) : Option Json :=
  match json with
  | some (.array elements) => elements.get? index
  | _ => none

/-- The jansson function `json_array_size`: 0 for a null pointer or a value that is not an
array. -/
def json_array_size : Option Json → Nat
  | some (.array elements) => elements.length
  | _ => 0

/-- The call `json_unpack(object, "{s:o}", key, &tmp)` on a `tmp` initialised to `NULL`:
the member when `object` is an object that has it, otherwise `tmp` stays `NULL`. -/
def json_unpack_o (object : Json) (key : String) : Option Json :=
  match object with
  | .object members => members.lookup key
  | _ => none

/-- Modelled from the spec: `enum maxavro_value_type` of `maxavro.h`, which is not among
the sources: the closed enumeration {int, long, float, double, bool, bytes, string, enum,
null, unknown}. -/
inductive maxavro_value_type where
  | MAXAVRO_TYPE_UNKNOWN
  | MAXAVRO_TYPE_INT
  | MAXAVRO_TYPE_LONG
  | MAXAVRO_TYPE_FLOAT
  | MAXAVRO_TYPE_DOUBLE
  | MAXAVRO_TYPE_BOOL
  | MAXAVRO_TYPE_STRING
  | MAXAVRO_TYPE_BYTES
  | MAXAVRO_TYPE_ENUM
  | MAXAVRO_TYPE_NULL
deriving DecidableEq

open maxavro_value_type

/-- The entries of the table `types` before the one with the `NULL` name. -/
def types : List (String × maxavro_value_type) :=
  [("int", MAXAVRO_TYPE_INT),
   ("long", MAXAVRO_TYPE_LONG),
   ("float", MAXAVRO_TYPE_FLOAT),
   ("double", MAXAVRO_TYPE_DOUBLE),
   ("bool", MAXAVRO_TYPE_BOOL),
   ("bytes", MAXAVRO_TYPE_BYTES),
   ("string", MAXAVRO_TYPE_STRING),
   ("enum", MAXAVRO_TYPE_ENUM),
   ("null", MAXAVRO_TYPE_NULL)]

/-- Embedding of `string_to_type`: the type of the first entry whose name equals `str`. -/
def string_to_type (str : String) : maxavro_value_type :=
  match types.find? (fun entry => str = entry.1) with
  | some entry => entry.2
  | none => MAXAVRO_TYPE_UNKNOWN

/-- A `MAXAVRO_SCHEMA_FIELD`. A member that was never assigned since `malloc` is `none`;
for `extra`, `some none` is the null pointer. -/
structure MAXAVRO_SCHEMA_FIELD where
  name : Option String
  extra : Option (Option Json)
  type : Option maxavro_value_type

/-- Embedding of `unpack_to_type`: the returned type and the field after the call.
`ss_debug` tells whether the build defines `SS_DEBUG`, in which case a failing
`ss_dassert` aborts (`none`). -/
def unpack_to_type (ss_debug : Bool) (object : Json) (field : MAXAVRO_SCHEMA_FIELD) :
    Option (maxavro_value_type × MAXAVRO_SCHEMA_FIELD) :=
  let type : Option Json := none
  let type := if json_is_object object then json_unpack_o object "type" else type
  let type := if json_is_array (some object) then json_array_get (some object) 0 else type
  match type with
  | some (.string value) =>
    let rval := string_to_type value
    if rval = MAXAVRO_TYPE_ENUM then
      let tmp := json_unpack_o object "symbols"
      if ss_debug && !json_is_array tmp then none
      else some (rval, { field with extra := some tmp })
    else some (rval, field)
  | _ => some (MAXAVRO_TYPE_UNKNOWN, field)

/-- The call `json_unpack(object, "{s:s s:o}", "name", &key, "type", &value_obj)` on
uninitialised `key` and `value_obj`: both are set when `object` is an object with a string
member "name" and a member "type"; otherwise one of them stays uninitialised and its use is
undefined behaviour (`none`). -/
def json_unpack_name_type (object : Option Json) : Option (String × Json) :=
  match object with
  | some (.object members) =>
    match members.lookup "name", members.lookup "type" with
    | some (.string key), some value_obj => some (key, value_obj)
    | _, _ => none
  | _ => none

/-- The body of the loop of `maxavro_schema_from_json` for one element of the array. -/
def read_field (ss_debug : Bool) (object : Json) : Option MAXAVRO_SCHEMA_FIELD :=
  match json_unpack_name_type (some object) with
  | none => none
  | some (key, value_obj) =>
    let field : MAXAVRO_SCHEMA_FIELD := { name := some key, extra := none, type := none }
    match unpack_to_type ss_debug value_obj field with
    | none => none
    | some (type, field) => some { field with type := some type }

/-- The loop of `maxavro_schema_from_json` over the elements of the array, in order. -/
def read_fields (ss_debug : Bool) : List Json → Option (List MAXAVRO_SCHEMA_FIELD)
  | [] => some []
  | object :: rest =>
    match read_field ss_debug object, read_fields ss_debug rest with
    | some field, some fields => some (field :: fields)
    | _, _ => none

/-- A `MAXAVRO_SCHEMA`; members that were never assigned since `malloc` are `none`. -/
structure MAXAVRO_SCHEMA where
  fields : Option (List MAXAVRO_SCHEMA_FIELD)
  num_fields : Option Nat

/-- Embedding of `maxavro_schema_from_json`. Parsing the text is the work of the library
function `json_loads`, whose result `schema` is the argument here (`none` when the text
does not parse). The result is the schema behind the returned pointer; `none` is undefined
behaviour or an abort. -/
def maxavro_schema_from_json (ss_debug : Bool) (schema : Option Json) : Option MAXAVRO_SCHEMA :=
  match schema with
  | some schema =>
    let field_arr := json_unpack_o schema "fields"
    let arr_size := json_array_size field_arr
    let elements := match field_arr with
      | some (.array elements) => elements
      | _ => []
    match read_fields ss_debug elements with
    | some fields => some { fields := some fields, num_fields := some arr_size }
    | none => none
  | none => some { fields := none, num_fields := none }

/-! ## Statements of the claims

Definitions that word the claims: inputs of the claimed shape and tables of the
specification. They embed no code. -/

/-- A well-formed Table Map payload: table id, flags, schema name `s` and table name `t`
each preceded by its length and followed by a NUL, the length-encoded column count `e`,
the column types, and whatever follows them in the event. -/
def table_map_payload (id_bytes flag_bytes s t e column_types rest : List Nat) : List Nat :=
  id_bytes ++ flag_bytes ++ [s.length] ++ s ++ [0] ++ [t.length] ++ t ++ [0] ++ e ++
    column_types ++ rest

/-- The width table as the specification words it: 1 byte for TINY; 2 for SHORT, YEAR; 3 for
TIME, DATE; 4 for LONG, INT24, FLOAT, TIMESTAMP; 8 for LONGLONG, DOUBLE, DATETIME; 0 for any
other code. -/
def spec_fixed_width (type : Nat) : Nat :=
  if type = TABLE_COL_TYPE_TINY then 1
  else if type = TABLE_COL_TYPE_SHORT ∨ type = TABLE_COL_TYPE_YEAR then 2
  else if type = TABLE_COL_TYPE_TIME ∨ type = TABLE_COL_TYPE_DATE then 3
  else if type = TABLE_COL_TYPE_LONG ∨ type = TABLE_COL_TYPE_INT24 ∨
      type = TABLE_COL_TYPE_FLOAT ∨ type = TABLE_COL_TYPE_TIMESTAMP then 4
  else if type = TABLE_COL_TYPE_LONGLONG ∨ type = TABLE_COL_TYPE_DOUBLE ∨
      type = TABLE_COL_TYPE_DATETIME then 8
  else 0

/-- The text `c1 T1, c2 T2, ..., cn Tn` of a list of column names and type texts. -/
def column_list : List (List Char × List Char) → List Char
  | [] => []
  | [(c, T)] => c ++ ' ' :: T
  | (c, T) :: rest => c ++ ' ' :: T ++ ',' :: ' ' :: column_list rest

/-- The text `db.` of an optional qualifier of the table name. -/
def qualifier_text : Option (List Char) → List Char
  | none => []
  | some q => q ++ ['.']

/-- The statement `CREATE TABLE [db.]name (c1 T1, c2 T2, ..., cn Tn)`. -/
def create_table_statement (qualifier : Option (List Char)) (name : List Char)
    (cols : List (List Char × List Char)) : List Char :=
  "CREATE TABLE ".toList ++ qualifier_text qualifier ++ name ++ [' ', '('] ++
    column_list cols ++ [')']

/-- A non-empty identifier free of whitespace, commas, dots, backticks and parentheses. -/
def is_identifier (s : List Char) : Prop :=
  s ≠ [] ∧ ∀ c ∈ s, isspace c = false ∧ c ≠ ',' ∧ c ≠ '.' ∧ c ≠ backtick ∧ c ≠ '(' ∧ c ≠ ')'

/-- The schema document of the specification's example:
`{"fields":[{"name":"a","type":"int"},{"name":"b","type":{"type":"long"}},
{"name":"c","type":["null","string"]}]}`. -/
def example_schema : Json :=
  .object [("fields", .array [
    .object [("name", .string "a"), ("type", .string "int")],
    .object [("name", .string "b"), ("type", .object [("type", .string "long")])],
    .object [("name", .string "c"), ("type", .array [.string "null", .string "string"])]])]

/-- The types of the fields of a schema, in order. -/
def field_types (schema : Option MAXAVRO_SCHEMA) : Option (List (Option maxavro_value_type)) :=
  match schema with
  | some { fields := some fields, .. } => some (fields.map (fun f => f.type))
  | _ => none

/-- What `unpack_to_type` makes of the first element of an array: the vocabulary lookup of a
string, unknown for anything else. -/
def first_branch_type : Json → maxavro_value_type
  | .string s => string_to_type s
  | _ => MAXAVRO_TYPE_UNKNOWN

/-- The name of an entry of the "fields" array: its member "name" when that is a string. -/
def entry_name : Json → Option String
  | .object members =>
    match members.lookup "name" with
    | some (.string key) => some key
    | _ => none
  | _ => none

/-- The schema with no field at all. -/
def empty_schema : MAXAVRO_SCHEMA := { fields := some [], num_fields := some 0 }

/-- A table map at the given version, as `table_map_alloc` and `table_map_rotate` leave it
in a `version_string` of 7 bytes. -/
def table_map_at (version : Int) : TABLE_MAP :=
  { id := 1, version := version, version_string := snprintf_06d 7 version, flags := 0,
    columns := 0, column_types := [], database := [100, 98], table := [116, 49] }

/-- The running nesting depth over a text: plus one per `(`, minus one per `)`. -/
def nesting_depth (text : List Char) : Int :=
  (text.count '(' : Int) - (text.count ')' : Int)

/-- The texts that follow the commas of a text, in order. -/
def after_commas : List Char → List (List Char)
  | [] => []
  | c :: rest => if c = ',' then rest :: after_commas rest else after_commas rest

/-- The starts of the comma-delimited chunks of a text: the text itself and what follows
each of its commas. -/
def chunk_starts (text : List Char) : List (List Char) :=
  text :: after_commas text

/-- The name read at the start of a chunk: after the leading whitespace, the characters
before the first space that follows, if a space follows at all. -/
def name_at (chunk_start : List Char) : Option (List Char) :=
  let trimmed := chunk_start.dropWhile isspace
  if ' ' ∈ trimmed then some (trimmed.takeWhile (fun c => c != ' ')) else none

/-- The names of the primitive-type vocabulary of the specification. -/
def spec_vocabulary : List String :=
  ["int", "long", "float", "double", "bool", "bytes", "string", "enum", "null"]

/-- The primitive-type vocabulary as the specification words it: "int", "long", "float",
"double", "bool", "bytes", "string", "enum" and "null" name the types int, long, float,
double, bool, bytes, string, enum and null, and any other name is unknown. It embeds no
code. -/
def spec_primitive_type (name : String) : maxavro_value_type :=
  if name = "int" then MAXAVRO_TYPE_INT
  else if name = "long" then MAXAVRO_TYPE_LONG
  else if name = "float" then MAXAVRO_TYPE_FLOAT
  else if name = "double" then MAXAVRO_TYPE_DOUBLE
  else if name = "bool" then MAXAVRO_TYPE_BOOL
  else if name = "bytes" then MAXAVRO_TYPE_BYTES
  else if name = "string" then MAXAVRO_TYPE_STRING
  else if name = "enum" then MAXAVRO_TYPE_ENUM
  else if name = "null" then MAXAVRO_TYPE_NULL
  else MAXAVRO_TYPE_UNKNOWN

/-! ## Lemmas on bytes and integers -/

theorem readBytes_append (a b : List Nat) (n : Nat) (h : a.length = n) :
    readBytes (a ++ b) n = some (a, b) := by
  subst h
  simp [readBytes]

theorem le_value_le_bytes (k : Nat) : ∀ n, n < 256 ^ k → le_value (le_bytes k n) = n := by
  induction k with
  | zero => intro n h; simp at h; simp [le_value, le_bytes, h]
  | succ k ih =>
    intro n h
    have h2 : n / 256 < 256 ^ k := by
      rw [Nat.div_lt_iff_lt_mul (by norm_num)]; rw [pow_succ] at h; exact h
    simp only [le_bytes, le_value, ih _ h2]
    omega

theorem le_bytes_length (k n : Nat) : (le_bytes k n).length = k := by
  induction k generalizing n with
  | zero => rfl
  | succ k ih => simp [le_bytes, ih]

theorem le_value_append (a b : List Nat) :
    le_value (a ++ b) = le_value a + 256 ^ a.length * le_value b := by
  induction a with
  | nil => simp [le_value]
  | cons x a ih =>
    show le_value (x :: (a ++ b)) = _
    simp only [le_value, ih, List.length_cons, pow_succ]
    ring

theorem leint_value_append (e rest : List Nat) (n : Nat) (h : is_leint e n) :
    leint_value (e ++ rest) = some n ∧ leint_bytes (e ++ rest) = some e.length := by
  rcases h with ⟨h, rfl⟩ | ⟨h, rfl⟩ | ⟨h, rfl⟩ | ⟨h, rfl⟩
  · simp [leint_value, leint_bytes, h]
  · have := le_value_le_bytes 2 n h
    simp [leint_value, leint_bytes, readBytes_append _ rest 2 (le_bytes_length 2 n), this,
      le_bytes_length]
  · have := le_value_le_bytes 3 n h
    simp [leint_value, leint_bytes, readBytes_append _ rest 3 (le_bytes_length 3 n), this,
      le_bytes_length]
  · have := le_value_le_bytes 8 n h
    simp [leint_value, leint_bytes, readBytes_append _ rest 8 (le_bytes_length 8 n), this,
      le_bytes_length]

theorem c_string_terminated (s : List Nat) (h : ∀ b ∈ s, b ≠ 0) :
    c_string (s ++ [0]) = some s := by
  have h1 : (s ++ [0]).takeWhile (fun b => b != 0) = s := by
    induction s with
    | nil => simp
    | cons a s ih =>
      have ha : a ≠ 0 := h a (by simp)
      simp [List.takeWhile_cons, ha]
      exact ih (fun b hb => h b (by simp [hb]))
  simp [c_string, h1]

theorem to_int_of_lt (x : Nat) (h : x < 2 ^ 31) : to_int x = (x : Int) := by
  unfold to_int
  have h1 : x % 2 ^ 32 = x := Nat.mod_eq_of_lt (by omega)
  rw [h1, if_pos h]

theorem to_int_usub32 (y : Nat) (h : y < 2 ^ 31) :
    to_int (usub 32 y 1900) = (y : Int) - 1900 := by
  unfold to_int usub
  split <;> omega

/-! ## Table map events -/

/-- Claim C1: parsing a well-formed Table Map payload gives its fields back. For a payload
made of the id bytes (4 when `post_header_len` is 6, otherwise 6), two flag bytes, the
schema name `s` and the table name `t` (at most 255 bytes, no NUL byte, each preceded by its
length and followed by a NUL), an encoding `e` of the column count `n` as a length-encoded
integer and `n` type bytes, `table_map_alloc` returns a map whose id and flags are the
little-endian values of the id and flag bytes, whose database is `s`, whose table is `t`,
whose column count is `n` and whose column types are the `n` type bytes in order. -/
theorem table_map_alloc_roundtrip (version_string_size post_header_len : Nat)
    (id_bytes flag_bytes s t e column_types rest : List Nat) (n : Nat)
    (hid : id_bytes.length = if post_header_len = 6 then 4 else 6)
    (hflags : flag_bytes.length = 2)
    (_hs : s.length ≤ 255) (hs0 : ∀ b ∈ s, b ≠ 0)
    (_ht : t.length ≤ 255) (ht0 : ∀ b ∈ t, b ≠ 0)
    (he : is_leint e n) (hn : column_types.length = n) :
    ∃ map, table_map_alloc version_string_size
        (table_map_payload id_bytes flag_bytes s t e column_types rest) post_header_len =
          some map ∧
      map.id = le_value id_bytes ∧ map.flags = le_value flag_bytes ∧
      map.database = s ∧ map.table = t ∧ map.columns = n ∧
      map.column_types = column_types ∧ map.column_types.length = map.columns := by
  obtain ⟨hv, hb⟩ := leint_value_append e (column_types ++ rest) n he
  have e1 : table_map_payload id_bytes flag_bytes s t e column_types rest =
      id_bytes ++ (flag_bytes ++ (s.length :: ((s ++ [0]) ++ (t.length :: ((t ++ [0]) ++
        (e ++ (column_types ++ rest))))))) := by
    simp [table_map_payload]
  rw [e1]
  unfold table_map_alloc
  simp only [readBytes_append _ _ _ hid, readBytes_append _ _ _ hflags]
  have hs1 : (s ++ [0]).length = s.length + 1 := by simp
  have ht1 : (t ++ [0]).length = t.length + 1 := by simp
  simp only [readBytes_append _ _ _ hs1, readBytes_append _ _ _ ht1, hv, hb,
    List.drop_left, readBytes_append _ _ _ hn, c_string_terminated s hs0,
    c_string_terminated t ht0]
  exact ⟨_, rfl, rfl, rfl, rfl, rfl, rfl, rfl, hn⟩

/-- Claim C1 at a payload with a 6-byte id, the schema "db", the table "t1" and three
columns whose count is written in the 3-byte form. -/
theorem table_map_alloc_roundtrip_witness :
    ∃ map, table_map_alloc 7
        (table_map_payload [1, 2, 3, 4, 5, 6] [1, 0] [100, 98] [116, 49] [0xfc, 3, 0]
          [3, 15, 12] [9]) 8 = some map ∧
      map.id = le_value [1, 2, 3, 4, 5, 6] ∧ map.flags = le_value [1, 0] ∧
      map.database = [100, 98] ∧ map.table = [116, 49] ∧ map.columns = 3 ∧
      map.column_types = [3, 15, 12] ∧ map.column_types.length = map.columns :=
  table_map_alloc_roundtrip 7 8 [1, 2, 3, 4, 5, 6] [1, 0] [100, 98] [116, 49] [0xfc, 3, 0]
    [3, 15, 12] [9] 3 (by decide) (by decide) (by decide) (by decide) (by decide) (by decide)
    (by simp [is_leint, le_bytes]) (by decide)

/-! ## Temporal values -/

/-- Claim C2: for every 64-bit raw value `v`, `unpack_temporal_value` for DATETIME stores
second `v mod 100`, minute `(v / 100) mod 100`, hour `(v / 10^4) mod 100`, day
`(v / 10^6) mod 100`, month `(v / 10^8) mod 100` as that literal value, and a year
`tm_year + 1900` equal to `v / 10^10`; for 20230615123045 this is 2023, 6, 15, 12, 30, 45. -/
theorem unpack_datetime_components (v : Nat) (tm : Tm) (hv : v < 2 ^ 64) :
    (unpack_temporal_value TABLE_COL_TYPE_DATETIME v tm).tm_sec = ((v % 100 : Nat) : Int) ∧
    (unpack_temporal_value TABLE_COL_TYPE_DATETIME v tm).tm_min =
      ((v / 100 % 100 : Nat) : Int) ∧
    (unpack_temporal_value TABLE_COL_TYPE_DATETIME v tm).tm_hour =
      ((v / 10 ^ 4 % 100 : Nat) : Int) ∧
    (unpack_temporal_value TABLE_COL_TYPE_DATETIME v tm).tm_mday =
      ((v / 10 ^ 6 % 100 : Nat) : Int) ∧
    (unpack_temporal_value TABLE_COL_TYPE_DATETIME v tm).tm_mon =
      ((v / 10 ^ 8 % 100 : Nat) : Int) ∧
    (unpack_temporal_value TABLE_COL_TYPE_DATETIME v tm).tm_year + 1900 =
      ((v / 10 ^ 10 : Nat) : Int) ∧
    unpack_temporal_value TABLE_COL_TYPE_DATETIME 20230615123045 tm =
      { tm_zero with tm_year := 2023 - 1900, tm_mon := 6, tm_mday := 15, tm_hour := 12,
                     tm_min := 30, tm_sec := 45 } := by
  have hsub : ∀ x : Nat, x - x / 100 * 100 = x % 100 := by intro x; omega
  have hu : ∀ x : Nat, to_int (to_uint32 (x % 100)) = ((x % 100 : Nat) : Int) := by
    intro x
    have : to_uint32 (x % 100) = x % 100 := by unfold to_uint32; omega
    rw [this, to_int_of_lt _ (by omega)]
  have hy : to_uint32 (v / 100 / 100 / 100 / 100 / 100) = v / 10 ^ 10 := by
    unfold to_uint32; omega
  have hy2 : v / 10 ^ 10 < 2 ^ 31 := by omega
  refine ⟨?_, ?_, ?_, ?_, ?_, ?_, (by decide : unpack_datetime _ = _)⟩
  all_goals
    simp only [unpack_temporal_value, if_true, unpack_datetime, hsub, hu, hy,
      to_int_usub32 _ hy2]
    first
      | done
      | omega

/-- Claim C2 at the raw value 20230615123045. -/
theorem unpack_datetime_components_witness :
    (20230615123045 : Nat) < 2 ^ 64 ∧
    (unpack_temporal_value TABLE_COL_TYPE_DATETIME 20230615123045 tm_zero).tm_mon =
      ((20230615123045 / 10 ^ 8 % 100 : Nat) : Int) ∧
    (unpack_temporal_value TABLE_COL_TYPE_DATETIME 20230615123045 tm_zero).tm_year + 1900 =
      ((20230615123045 / 10 ^ 10 : Nat) : Int) :=
  ⟨by norm_num,
    (unpack_datetime_components 20230615123045 tm_zero (by norm_num)).2.2.2.2.1,
    (unpack_datetime_components 20230615123045 tm_zero (by norm_num)).2.2.2.2.2.1⟩

/-- Claim C3, the code at the raw value 20230615123045: `unpack_datetime` stores the month
6 in `tm_mon`, which counts months since January, so that `strftime` prints "07" and the
formatted string is "2023-07-15 12:30:45", not "2023-06-15 12:30:45". -/
theorem format_datetime_prints_next_month :
    (unpack_temporal_value TABLE_COL_TYPE_DATETIME 20230615123045 tm_zero).tm_mon = 6 ∧
    format_temporal_value false 20 TABLE_COL_TYPE_DATETIME
        (unpack_temporal_value TABLE_COL_TYPE_DATETIME 20230615123045 tm_zero) =
      some "2023-07-15 12:30:45".toList ∧
    format_temporal_value false 20 TABLE_COL_TYPE_DATETIME
        (unpack_temporal_value TABLE_COL_TYPE_DATETIME 20230615123045 tm_zero) ≠
      some "2023-06-15 12:30:45".toList := by
  refine ⟨by decide, by decide, by decide⟩

/-- Claim C4 as stated fails: for the 64-bit raw value `(2^31 + 1900) << 9` the year
`tm_year + 1900` differs from `v >> 9`, as `tm_year` is an `int`. -/
theorem unpack_date_year_counterexample :
    (2 ^ 31 + 1900) <<< 9 < 2 ^ 64 ∧
    (unpack_temporal_value TABLE_COL_TYPE_DATE ((2 ^ 31 + 1900) <<< 9) tm_zero).tm_year + 1900 ≠
      (((((2 ^ 31 + 1900) <<< 9) >>> 9 : Nat)) : Int) := by
  decide

/-- Claim C4, amended: for every 64-bit raw value `v`, `unpack_temporal_value` for DATE
stores day `v & 0x1F` and month `(v >> 5) & 0x0F`, leaves hour, minute and second zero, and
stores a year `tm_year + 1900` equal to `v >> 9` whenever `v >> 9` is below `2^31 + 1900`
(as for every 3-byte value); for `(2023 << 9) | (6 << 5) | 15` this is 2023, 6, 15. -/
theorem unpack_date_components (v : Nat) (tm : Tm) (hv : v < 2 ^ 64) :
    (unpack_temporal_value TABLE_COL_TYPE_DATE v tm).tm_mday = ((v &&& 0x1F : Nat) : Int) ∧
    (unpack_temporal_value TABLE_COL_TYPE_DATE v tm).tm_mon =
      (((v >>> 5) &&& 0x0F : Nat) : Int) ∧
    (v >>> 9 < 2 ^ 31 + 1900 →
      (unpack_temporal_value TABLE_COL_TYPE_DATE v tm).tm_year + 1900 =
        ((v >>> 9 : Nat) : Int)) ∧
    (unpack_temporal_value TABLE_COL_TYPE_DATE v tm).tm_hour = 0 ∧
    (unpack_temporal_value TABLE_COL_TYPE_DATE v tm).tm_min = 0 ∧
    (unpack_temporal_value TABLE_COL_TYPE_DATE v tm).tm_sec = 0 ∧
    unpack_temporal_value TABLE_COL_TYPE_DATE ((2023 <<< 9) ||| (6 <<< 5) ||| 15) tm =
      { tm_zero with tm_year := 2023 - 1900, tm_mon := 6, tm_mday := 15 } := by
  have hd : v &&& 31 < 2 ^ 31 := lt_of_le_of_lt Nat.and_le_right (by norm_num)
  have hm : (v >>> 5) &&& 15 < 2 ^ 31 := lt_of_le_of_lt Nat.and_le_right (by norm_num)
  have hy : v >>> 9 < 2 ^ 55 := by
    rw [Nat.shiftRight_eq_div_pow]; omega
  refine ⟨?_, ?_, ?_, rfl, rfl, rfl, (by decide : unpack_date _ = _)⟩
  · simp [unpack_temporal_value, TABLE_COL_TYPE_DATE, TABLE_COL_TYPE_DATETIME,
      TABLE_COL_TYPE_TIME, unpack_date, to_int_of_lt _ hd]
  · simp [unpack_temporal_value, TABLE_COL_TYPE_DATE, TABLE_COL_TYPE_DATETIME,
      TABLE_COL_TYPE_TIME, unpack_date, to_int_of_lt _ hm]
  · intro h
    simp only [unpack_temporal_value, TABLE_COL_TYPE_DATE, TABLE_COL_TYPE_DATETIME,
      TABLE_COL_TYPE_TIME, unpack_date]
    simp only [show ¬ (0x0a = 0x0c) by decide, show ¬ (0x0a = 0x0b) by decide, if_true,
      if_false]
    generalize v >>> 9 = y at h hy ⊢
    unfold to_int usub
    split <;> omega

/-- Claim C4, amended, at the 3-byte raw value 1036015 = `(2023 << 9) | (7 << 5) | 15`. -/
theorem unpack_date_components_witness :
    (1036015 : Nat) < 2 ^ 64 ∧ 1036015 >>> 9 < 2 ^ 31 + 1900 ∧
    (unpack_temporal_value TABLE_COL_TYPE_DATE 1036015 tm_zero).tm_year + 1900 =
      ((1036015 >>> 9 : Nat) : Int) :=
  ⟨by norm_num, by decide,
    (unpack_date_components 1036015 tm_zero (by norm_num)).2.2.1 (by decide)⟩

/-! ## Field values of a row event -/

theorem type_code_cases (type : Nat) :
    type = 1 ∨ type = 2 ∨ type = 3 ∨ type = 4 ∨ type = 5 ∨ type = 7 ∨ type = 8 ∨ type = 9 ∨
    type = 10 ∨ type = 11 ∨ type = 12 ∨ type = 13 ∨
    (type ≠ 1 ∧ type ≠ 2 ∧ type ≠ 3 ∧ type ≠ 4 ∧ type ≠ 5 ∧ type ≠ 7 ∧ type ≠ 8 ∧ type ≠ 9 ∧
      type ≠ 10 ∧ type ≠ 11 ∧ type ≠ 12 ∧ type ≠ 13) := by
  omega

theorem extract_field_value_eq (ptr : List Nat) (type val : Nat)
    (hlen : spec_fixed_width type ≤ ptr.length) :
    extract_field_value ptr type val =
      some (spec_fixed_width type,
        if spec_fixed_width type = 0 then val
        else memcpy_uint64 val ptr (spec_fixed_width type)) := by
  rcases type_code_cases type with
    rfl | rfl | rfl | rfl | rfl | rfl | rfl | rfl | rfl | rfl | rfl | rfl | h
  all_goals
    simp only [extract_field_value, spec_fixed_width, TABLE_COL_TYPE_TINY, TABLE_COL_TYPE_SHORT,
      TABLE_COL_TYPE_YEAR, TABLE_COL_TYPE_TIME, TABLE_COL_TYPE_DATE, TABLE_COL_TYPE_LONG,
      TABLE_COL_TYPE_INT24, TABLE_COL_TYPE_FLOAT, TABLE_COL_TYPE_TIMESTAMP,
      TABLE_COL_TYPE_LONGLONG, TABLE_COL_TYPE_DOUBLE, TABLE_COL_TYPE_DATETIME] at hlen ⊢
    simp_all

theorem spec_fixed_width_string_type (type : Nat) (h : column_is_string_type type = true) :
    spec_fixed_width type = 0 := by
  rcases type_code_cases type with
    rfl | rfl | rfl | rfl | rfl | rfl | rfl | rfl | rfl | rfl | rfl | rfl | h'
  all_goals
    simp only [column_is_string_type, spec_fixed_width, TABLE_COL_TYPE_TINY,
      TABLE_COL_TYPE_SHORT, TABLE_COL_TYPE_YEAR, TABLE_COL_TYPE_TIME,
      TABLE_COL_TYPE_DATE, TABLE_COL_TYPE_LONG, TABLE_COL_TYPE_INT24, TABLE_COL_TYPE_FLOAT,
      TABLE_COL_TYPE_TIMESTAMP, TABLE_COL_TYPE_LONGLONG, TABLE_COL_TYPE_DOUBLE,
      TABLE_COL_TYPE_DATETIME, TABLE_COL_TYPE_DECIMAL, TABLE_COL_TYPE_VARCHAR,
      TABLE_COL_TYPE_BIT, TABLE_COL_TYPE_NEWDECIMAL, TABLE_COL_TYPE_ENUM, TABLE_COL_TYPE_SET,
      TABLE_COL_TYPE_TINY_BLOB, TABLE_COL_TYPE_MEDIUM_BLOB, TABLE_COL_TYPE_LONG_BLOB,
      TABLE_COL_TYPE_BLOB, TABLE_COL_TYPE_VAR_STRING, TABLE_COL_TYPE_STRING,
      TABLE_COL_TYPE_GEOMETRY] at h ⊢
    simp_all

theorem spec_fixed_width_values (type : Nat) (hw : spec_fixed_width type ≠ 0) :
    spec_fixed_width type = 1 ∨ spec_fixed_width type = 2 ∨ spec_fixed_width type = 3 ∨
      spec_fixed_width type = 4 ∨ spec_fixed_width type = 8 := by
  rcases type_code_cases type with
    rfl | rfl | rfl | rfl | rfl | rfl | rfl | rfl | rfl | rfl | rfl | rfl | h'
  all_goals
    simp only [spec_fixed_width, TABLE_COL_TYPE_TINY,
      TABLE_COL_TYPE_SHORT, TABLE_COL_TYPE_YEAR, TABLE_COL_TYPE_TIME,
      TABLE_COL_TYPE_DATE, TABLE_COL_TYPE_LONG, TABLE_COL_TYPE_INT24, TABLE_COL_TYPE_FLOAT,
      TABLE_COL_TYPE_TIMESTAMP, TABLE_COL_TYPE_LONGLONG, TABLE_COL_TYPE_DOUBLE,
      TABLE_COL_TYPE_DATETIME] at hw ⊢
    simp_all

theorem memcpy_uint64_eq (val : Nat) (ptr : List Nat) (n : Nat) (hval : val < 2 ^ 64)
    (hn : n = 1 ∨ n = 2 ∨ n = 3 ∨ n = 4 ∨ n = 8) (hlen : n ≤ ptr.length) :
    memcpy_uint64 val ptr n = le_value (ptr.take n) + 256 ^ n * (val / 256 ^ n) := by
  unfold memcpy_uint64
  rw [le_value_append, List.length_take, Nat.min_eq_left hlen]
  congr 1
  rcases hn with rfl | rfl | rfl | rfl | rfl <;>
    simp only [le_bytes, List.drop_succ_cons, List.drop_zero, le_value, List.drop_nil] <;> omega

/-- Claim C5: for every column type code and every buffer that holds the bytes to copy,
`extract_field_value` returns the byte count of the width table: 1 for TINY; 2 for SHORT and
YEAR; 3 for TIME and DATE; 4 for LONG, INT24, FLOAT and TIMESTAMP; 8 for LONGLONG, DOUBLE
and DATETIME; 0 for every other code, among them every string or blob type. -/
theorem extract_field_value_width (ptr : List Nat) (type val : Nat)
    (hlen : spec_fixed_width type ≤ ptr.length) :
    (extract_field_value ptr type val).map Prod.fst = some (spec_fixed_width type) ∧
    (column_is_string_type type = true →
      (extract_field_value ptr type val).map Prod.fst = some 0) := by
  rw [extract_field_value_eq ptr type val hlen]
  refine ⟨rfl, ?_⟩
  intro h
  simp [spec_fixed_width_string_type type h]

/-- Claim C5 at a SHORT read from a buffer of three bytes. -/
theorem extract_field_value_width_witness :
    spec_fixed_width TABLE_COL_TYPE_SHORT ≤ [0x39, 0x30, 7].length ∧
    (extract_field_value [0x39, 0x30, 7] TABLE_COL_TYPE_SHORT 0).map Prod.fst = some 2 :=
  ⟨by decide, (extract_field_value_width [0x39, 0x30, 7] TABLE_COL_TYPE_SHORT 0 (by decide)).1⟩

/-- Claim C6 as stated fails: the value left in the holder depends on what the holder held
before the call. For a TINY read of the byte 5, a holder of all ones ends as
0xFFFFFFFFFFFFFF05 and a zeroed holder as 5. -/
theorem extract_field_value_holder_counterexample :
    extract_field_value [5] TABLE_COL_TYPE_TINY 0xFFFFFFFFFFFFFFFF =
      some (1, 0xFFFFFFFFFFFFFF05) ∧
    extract_field_value [5] TABLE_COL_TYPE_TINY 0 = some (1, 5) ∧
    (0xFFFFFFFFFFFFFF05 : Nat) ≠ le_value [5] := by
  decide

/-- Claim C6, amended: for every supported fixed-width column type of width `w`, every buffer
holding at least `w` bytes and every 64-bit content `val` of the holder before the call, the
holder ends with its `w` low bytes copied from the buffer and its other bytes kept:
its value is the little-endian integer of the `w` bytes plus `256^w * (val / 256^w)`. It is
that little-endian integer alone when the holder was zero before the call or `w = 8`. -/
theorem extract_field_value_raw (ptr : List Nat) (type val : Nat) (hval : val < 2 ^ 64)
    (hw : spec_fixed_width type ≠ 0) (hlen : spec_fixed_width type ≤ ptr.length) :
    extract_field_value ptr type val =
      some (spec_fixed_width type,
        le_value (ptr.take (spec_fixed_width type)) +
          256 ^ spec_fixed_width type * (val / 256 ^ spec_fixed_width type)) ∧
    (val = 0 ∨ spec_fixed_width type = 8 →
      extract_field_value ptr type val =
        some (spec_fixed_width type, le_value (ptr.take (spec_fixed_width type)))) := by
  have hn := spec_fixed_width_values type hw
  have h := extract_field_value_eq ptr type val hlen
  rw [if_neg hw, memcpy_uint64_eq val ptr _ hval hn hlen] at h
  refine ⟨h, ?_⟩
  intro h0
  rw [h]
  have : val / 256 ^ spec_fixed_width type = 0 := by
    rcases h0 with h0 | h0
    · simp [h0]
    · rw [h0]; omega
  simp [this]

/-- Claim C6, amended, at a SHORT read into a zeroed holder. -/
theorem extract_field_value_raw_witness :
    (0 : Nat) < 2 ^ 64 ∧ spec_fixed_width TABLE_COL_TYPE_SHORT ≠ 0 ∧
    extract_field_value [0x39, 0x30, 7] TABLE_COL_TYPE_SHORT 0 =
        some (spec_fixed_width TABLE_COL_TYPE_SHORT,
          le_value ([0x39, 0x30, 7].take (spec_fixed_width TABLE_COL_TYPE_SHORT))) :=
  ⟨by decide, by decide,
    (extract_field_value_raw [0x39, 0x30, 7] TABLE_COL_TYPE_SHORT 0 (by decide) (by decide)
      (by decide)).2 (Or.inl rfl)⟩

/-! ## CREATE TABLE statements -/

theorem strchr_not_mem (l : List Char) (c : Char) (h : c ∉ l) : strchr l c = none := by
  induction l with
  | nil => rfl
  | cons x xs ih =>
    simp only [List.mem_cons, not_or] at h
    simp [strchr, Ne.symm h.1, ih h.2]

theorem strchr_append (a b : List Char) (c : Char) (h : c ∉ a) :
    strchr (a ++ c :: b) c = some (c :: b) := by
  induction a with
  | nil => simp [strchr]
  | cons x xs ih =>
    simp only [List.mem_cons, not_or] at h
    simp [strchr, Ne.symm h.1, ih h.2]

theorem takeWhile_append_stop (p : Char → Bool) (a b : List Char) (x : Char)
    (ha : ∀ c ∈ a, p c = true) (hx : p x = false) :
    (a ++ x :: b).takeWhile p = a := by
  induction a with
  | nil => simp [List.takeWhile_cons, hx]
  | cons y ys ih =>
    simp only [List.cons_append, List.takeWhile_cons, ha y (List.mem_cons_self _ _), if_true]
    rw [ih (fun c hc => ha c (List.mem_cons_of_mem _ hc))]

theorem dropWhile_append_stop (p : Char → Bool) (a b : List Char) (x : Char)
    (ha : ∀ c ∈ a, p c = true) (hx : p x = false) :
    (a ++ x :: b).dropWhile p = x :: b := by
  induction a with
  | nil => simp [List.dropWhile_cons, hx]
  | cons y ys ih =>
    simp only [List.cons_append, List.dropWhile_cons, ha y (List.mem_cons_self _ _), if_true]
    rw [ih (fun c hc => ha c (List.mem_cons_of_mem _ hc))]

theorem strchr_length (l : List Char) (c : Char) (r : List Char) (h : strchr l c = some r) :
    r.length ≤ l.length ∧ 1 ≤ r.length := by
  induction l with
  | nil => simp [strchr] at h
  | cons x xs ih =>
    simp only [strchr] at h
    split at h
    · cases h; simp
    · have := ih h
      simp only [List.length_cons]
      omega

theorem dropWhile_length_le (p : Char → Bool) (l : List Char) :
    (l.dropWhile p).length ≤ l.length := by
  induction l with
  | nil => simp
  | cons x xs ih =>
    simp only [List.dropWhile_cons]
    split <;> simp only [List.length_cons] <;> omega

/-- The fuel of `column_names_loop` is never used up: above the length of the string the
result does not depend on it. -/
theorem column_names_loop_fuel (fuel1 : Nat) :
    ∀ (fuel2 : Nat) (nameptr : List Char) (names : List (List Char)),
      nameptr.length < fuel1 → nameptr.length < fuel2 →
      column_names_loop fuel1 nameptr names = column_names_loop fuel2 nameptr names := by
  induction fuel1 with
  | zero => intro _ _ _ h; omega
  | succ f1 ih =>
    intro fuel2 nameptr names h1 h2
    obtain ⟨f2, rfl⟩ : ∃ f, fuel2 = f + 1 := ⟨fuel2 - 1, by omega⟩
    simp only [column_names_loop]
    split
    · rfl
    · split
      · rename_i rest hrest
        have hl := strchr_length _ _ _ hrest
        have hd := dropWhile_length_le isspace nameptr
        apply ih
        · simp only [List.length_drop]; omega
        · simp only [List.length_drop]; omega
      · rfl

theorem scan_definition_closes (l : List Char) :
    ∀ (depth : Int) (k : Nat), 0 ≤ depth →
      depth + (l.count '(' : Int) < (l.count ')' : Int) →
      ∃ size, scan_definition l depth k = some size := by
  induction l with
  | nil => intro d k h0 h; simp at h; omega
  | cons c rest ih =>
    intro d k h0 h
    simp only [scan_definition]
    by_cases h1 : c = '('
    · subst h1
      have hc : List.count ')' ('(' :: rest) = List.count ')' rest := by
        rw [List.count_cons_of_ne (by decide)]
      rw [List.count_cons_self, hc] at h
      simp only [if_true]
      rw [if_neg (by omega)]
      exact ih _ _ (by omega) (by push_cast at h ⊢; omega)
    · by_cases h2 : c = ')'
      · subst h2
        have hc : List.count '(' (')' :: rest) = List.count '(' rest := by
          rw [List.count_cons_of_ne (by decide)]
        rw [List.count_cons_self, hc] at h
        simp only [show ¬ (')' = '(') by decide, if_false, if_true]
        by_cases h3 : d - 1 < 0
        · rw [if_pos h3]; exact ⟨_, rfl⟩
        · rw [if_neg h3]
          exact ih _ _ (by omega) (by push_cast at h ⊢; omega)
      · rw [List.count_cons_of_ne (Ne.symm h1), List.count_cons_of_ne (Ne.symm h2)] at h
        simp only [h1, h2, if_false]
        rw [if_neg (by omega)]
        exact ih _ _ h0 h

theorem column_list_length (cols : List (List Char × List Char)) :
    cols.length ≤ (column_list cols).length := by
  induction cols with
  | nil => simp
  | cons p rest ih =>
    obtain ⟨c, T⟩ := p
    cases rest with
    | nil => simp [column_list]; omega
    | cons p2 rest2 =>
      simp only [column_list, List.length_cons, List.length_append] at ih ⊢
      omega

theorem column_names_loop_round (c T rest : List Char) (lead : List Char)
    (hlead : ∀ x ∈ lead, isspace x = true) (hc : is_identifier c) (hlen : c.length ≤ 64)
    (fuel : Nat) (names : List (List Char)) :
    column_names_loop (fuel + 1) (lead ++ (c ++ ' ' :: (T ++ rest))) names =
      match strchr (c ++ ' ' :: (T ++ rest)) ',' with
      | some r => column_names_loop fuel (r.drop 1) (names ++ [c])
      | none => some (names ++ [c]) := by
  obtain ⟨hne, hid⟩ := hc
  obtain ⟨x, xs, rfl⟩ := List.exists_cons_of_ne_nil hne
  have hx : isspace x = false := (hid x (List.mem_cons_self _ _)).1
  have hdrop : (lead ++ (x :: xs ++ ' ' :: (T ++ rest))).dropWhile isspace =
      x :: xs ++ ' ' :: (T ++ rest) := by
    rw [List.cons_append, dropWhile_append_stop isspace lead _ x hlead hx]
  have hsp : (' ' : Char) ∉ x :: xs := by
    intro hmem
    have := (hid ' ' hmem).1
    simp [isspace] at this
  have htake : (x :: xs ++ ' ' :: (T ++ rest)).takeWhile (fun c => c != ' ') = x :: xs := by
    apply takeWhile_append_stop
    · intro c hc
      have : c ≠ ' ' := fun h => hsp (h ▸ hc)
      simpa using this
    · simp
  simp only [column_names_loop, hdrop, strchr_append _ _ _ hsp, htake]
  rw [if_neg (by omega)]

theorem column_names_loop_columns :
    ∀ (cols : List (List Char × List Char)), cols ≠ [] →
      (∀ p ∈ cols, is_identifier p.1 ∧ p.1.length ≤ 64 ∧ ',' ∉ p.2) →
      ∀ (fuel : Nat), cols.length ≤ fuel → ∀ (names : List (List Char)) (lead : List Char),
        (∀ x ∈ lead, isspace x = true) →
        column_names_loop fuel (lead ++ (column_list cols ++ [')'])) names =
          some (names ++ cols.map Prod.fst) := by
  intro cols
  induction cols with
  | nil => intro h; exact absurd rfl h
  | cons p rest ih =>
    intro _ hcols fuel hfuel names lead hlead
    obtain ⟨c, T⟩ := p
    obtain ⟨hc, hlen, hT⟩ := hcols (c, T) (List.mem_cons_self _ _)
    have hcomma : (',' : Char) ∉ c := fun hmem => (hc.2 ',' hmem).2.1 rfl
    obtain ⟨fuel, rfl⟩ : ∃ f, fuel = f + 1 := ⟨fuel - 1, by simp at hfuel; omega⟩
    cases rest with
    | nil =>
      have e : column_list [(c, T)] ++ [')'] = c ++ ' ' :: (T ++ [')']) := by
        simp [column_list]
      rw [e, column_names_loop_round c T [')'] lead hlead hc hlen]
      have hno : (',' : Char) ∉ c ++ ' ' :: (T ++ [')']) := by
        simp [hcomma, hT]
      rw [strchr_not_mem _ _ hno]
      simp
    | cons p2 rest2 =>
      have e : column_list ((c, T) :: p2 :: rest2) ++ [')'] =
          c ++ ' ' :: (T ++ (',' :: ([' '] ++ (column_list (p2 :: rest2) ++ [')'])))) := by
        simp [column_list]
      rw [e, column_names_loop_round c T _ lead hlead hc hlen]
      have e2 : c ++ ' ' :: (T ++ (',' :: ([' '] ++ (column_list (p2 :: rest2) ++ [')'])))) =
          (c ++ ' ' :: T) ++ ',' :: ([' '] ++ (column_list (p2 :: rest2) ++ [')'])) := by
        simp
      have hno : (',' : Char) ∉ c ++ ' ' :: T := by
        simp [hcomma, hT]
      rw [e2, strchr_append _ _ _ hno]
      simp only [List.drop_succ_cons, List.drop_zero]
      rw [ih (by simp) (fun p hp => hcols p (List.mem_cons_of_mem _ hp)) fuel
        (by simp at hfuel ⊢; omega) (names ++ [c]) [' '] (by simp [isspace])]
      simp

theorem get_table_name_statement (dest_size : Nat) (qualifier : Option (List Char))
    (name tail : List Char) (hq : ∀ q, qualifier = some q → '(' ∉ q)
    (hname : is_identifier name) (hfit : name.length < dest_size) :
    get_table_name dest_size
        ("CREATE TABLE ".toList ++ qualifier_text qualifier ++ name ++ [' ', '('] ++ tail) =
      some (some name) ∧
    ("CREATE TABLE ".toList ++ qualifier_text qualifier ++ name ++ [' ', '('] ++ tail).takeWhile
        (fun c => c != '(') = "CREATE TABLE ".toList ++ qualifier_text qualifier ++ name ++ [' '] := by
  -- the text before the name ends with a delimiter
  obtain ⟨K, d, hK, hd, hKp⟩ : ∃ K d, "CREATE TABLE ".toList ++ qualifier_text qualifier = K ++ [d] ∧
      (d = ' ' ∨ d = '.') ∧ '(' ∉ K := by
    cases qualifier with
    | none => exact ⟨"CREATE TABLE".toList, ' ', by simp [qualifier_text], Or.inl rfl, by decide⟩
    | some q =>
      refine ⟨"CREATE TABLE ".toList ++ q, '.', by simp [qualifier_text], Or.inr rfl, ?_⟩
      have := hq q rfl
      simp [this]
  obtain ⟨hne, hid⟩ := hname
  have hdp : d ≠ '(' := by rcases hd with rfl | rfl <;> decide
  have hnp : '(' ∉ name := fun hmem => (hid '(' hmem).2.2.2.2.1 rfl
  have hpre : ∀ c ∈ K ++ [d] ++ name ++ [' '], (c != '(') = true := by
    intro c hc
    have : c ≠ '(' := by
      intro h; subst h
      simp only [List.mem_append, List.mem_singleton] at hc
      rcases hc with ((h | h) | h) | h
      · exact hKp h
      · exact hdp h.symm
      · exact hnp h
      · exact absurd h (by decide)
    simpa using this
  have htake : (K ++ [d] ++ name ++ [' ', '('] ++ tail).takeWhile (fun c => c != '(') =
      K ++ [d] ++ name ++ [' '] := by
    have e : K ++ [d] ++ name ++ [' ', '('] ++ tail = (K ++ [d] ++ name ++ [' ']) ++ '(' :: tail := by
      simp
    rw [e]
    exact takeWhile_append_stop _ _ _ _ hpre (by simp)
  rw [hK]
  refine ⟨?_, htake⟩
  have hstr : strchr (K ++ [d] ++ name ++ [' ', '('] ++ tail) '(' = some ('(' :: tail) := by
    have e : K ++ [d] ++ name ++ [' ', '('] ++ tail = (K ++ [d] ++ name ++ [' ']) ++ '(' :: tail := by
      simp
    rw [e]
    apply strchr_append
    intro hmem
    have := hpre _ hmem
    simp at this
  obtain ⟨y, ys, hrev⟩ := List.exists_cons_of_ne_nil (fun h => hne (List.reverse_eq_nil_iff.mp h))
  have hy : y ∈ name := by
    have : y ∈ name.reverse := by rw [hrev]; exact List.mem_cons_self _ _
    simpa using this
  have hbefore : (K ++ [d] ++ name ++ [' ']).reverse = [' '] ++ (y :: (ys ++ d :: K.reverse)) := by
    simp [hrev]
  have hskip : ([' '] ++ (y :: (ys ++ d :: K.reverse))).dropWhile
      (fun c => c = backtick || isspace c) = y :: (ys ++ d :: K.reverse) := by
    apply dropWhile_append_stop
    · intro c hc; simp at hc; subst hc; decide
    · have := hid y hy
      simp [this.1, this.2.2.2.1]
  have hname' : (y :: (ys ++ d :: K.reverse)).takeWhile
      (fun c => !(c = backtick || c = '.' || isspace c)) = y :: ys := by
    have e : y :: (ys ++ d :: K.reverse) = (y :: ys) ++ d :: K.reverse := by simp
    rw [e]
    apply takeWhile_append_stop
    · intro c hc
      have hcn : c ∈ name := by
        have : c ∈ name.reverse := by rw [hrev]; exact hc
        simpa using this
      have := hid c hcn
      simp [this.1, this.2.2.1, this.2.2.2.1]
    · rcases hd with rfl | rfl <;> decide
  have hlen : (y :: ys).length = name.length := by rw [← hrev]; simp
  simp only [get_table_name, hstr, htake, hbefore, hskip, hname']
  have hrn : (y :: ys).reverse = name := by rw [← hrev]; simp
  rw [hrn]
  rw [if_neg (by simp only [List.length_cons, List.length_append] at hlen ⊢; omega),
    if_neg (by omega)]

theorem get_table_definition_statement (P tail : List Char)
    (hP : (P ++ '(' :: tail).takeWhile (fun c => c != '(') = P)
    (hlen : 2 ≤ tail.length)
    (hbal : (tail.count '(' : Int) < (tail.count ')' : Int)) :
    ∃ size, get_table_definition (P ++ '(' :: tail) = some (P.length + 1, size) ∧
      (P ++ '(' :: tail).drop (P.length + 1) = tail := by
  have hdrop : (P ++ '(' :: tail).drop (P.length + 1) = tail := by
    rw [List.drop_append_eq_append_drop]
    simp
  obtain ⟨size, hsize⟩ := scan_definition_closes tail 0 0 (le_refl _) (by simpa using hbal)
  refine ⟨size, ?_, hdrop⟩
  unfold get_table_definition
  simp only [hP, hdrop, hsize]
  rw [if_pos]
  simp only [List.length_append, List.length_cons]
  push_cast
  omega

/-- Claim C7, amended: for every statement `CREATE TABLE [db.]name (c1 T1, ..., cn Tn)` with
`n >= 1`, where the qualifier holds no `(`, `name` and each `ci` are non-empty identifiers
free of whitespace, commas, dots, backticks and parentheses, `name` is shorter than
`MYSQL_TABLE_MAXLEN`, each `ci` has at most 64 characters, each `Ti` is free of commas and
the column list holds at least as many `)` as `(`, `table_create_alloc` returns a
`TABLE_CREATE` whose table is `name`, whose columns is `n`, whose column names are
`[c1, ..., cn]` in order, whose database is the `db` argument and whose gtid is empty. -/
theorem table_create_alloc_statement (MYSQL_TABLE_MAXLEN : Nat) (qualifier : Option (List Char))
    (name db : List Char) (cols : List (List Char × List Char))
    (hq : ∀ q, qualifier = some q → '(' ∉ q)
    (hname : is_identifier name) (hfit : name.length < MYSQL_TABLE_MAXLEN)
    (hcols : cols ≠ [])
    (hcol : ∀ p ∈ cols, is_identifier p.1 ∧ p.1.length ≤ 64 ∧ ',' ∉ p.2)
    (hbal : (column_list cols).count '(' ≤ (column_list cols).count ')') :
    table_create_alloc MYSQL_TABLE_MAXLEN (create_table_statement qualifier name cols) db =
      some (some { column_names := cols.map Prod.fst
                   columns := cols.length
                   database := db
                   table := name
                   gtid := [] }) := by
  have hform : create_table_statement qualifier name cols =
      "CREATE TABLE ".toList ++ qualifier_text qualifier ++ name ++ [' ', '('] ++
        (column_list cols ++ [')']) := by
    simp [create_table_statement]
  obtain ⟨hname', htake⟩ := get_table_name_statement MYSQL_TABLE_MAXLEN qualifier name
    (column_list cols ++ [')']) hq hname hfit
  have hsplit : "CREATE TABLE ".toList ++ qualifier_text qualifier ++ name ++ [' ', '('] ++
        (column_list cols ++ [')']) =
      ("CREATE TABLE ".toList ++ qualifier_text qualifier ++ name ++ [' ']) ++
        '(' :: (column_list cols ++ [')']) := by
    simp
  have hcl : 1 ≤ (column_list cols).length := by
    have := column_list_length cols
    have : 1 ≤ cols.length := List.length_pos.mpr hcols
    omega
  obtain ⟨size, hdef, hdrop⟩ := get_table_definition_statement
    ("CREATE TABLE ".toList ++ qualifier_text qualifier ++ name ++ [' '])
    (column_list cols ++ [')']) (by rw [← hsplit]; exact htake)
    (by simp only [List.length_append, List.length_singleton]; omega)
    (by
      rw [List.count_append, List.count_append]
      have h1 : List.count '(' [')'] = 0 := by decide
      have h2 : List.count ')' [')'] = 1 := by decide
      rw [h1, h2]
      push_cast
      omega)
  have hloop := column_names_loop_columns cols hcols hcol
    ((create_table_statement qualifier name cols).length + 1)
    (by
      rw [hform]
      simp only [List.length_append]
      have := column_list_length cols
      omega) [] [] (by simp)
  simp only [List.nil_append] at hloop
  unfold table_create_alloc
  rw [hform] at hloop ⊢
  rw [hname']
  rw [hsplit] at hloop ⊢
  simp only [hdef, hdrop, hloop]
  rw [if_pos (by simpa using List.length_pos.mpr hcols)]
  simp

/-- Claim C7, amended, at the statement of the specification: for
"CREATE TABLE db.t1 (id INT, name VARCHAR(20))" the table is "t1" and the column names are
"id" and "name". -/
theorem table_create_alloc_statement_witness :
    table_create_alloc 64 "CREATE TABLE db.t1 (id INT, name VARCHAR(20))".toList "db".toList =
      some (some { column_names := ["id".toList, "name".toList]
                   columns := 2
                   database := "db".toList
                   table := "t1".toList
                   gtid := [] }) :=
  table_create_alloc_statement 64 (some "db".toList) "t1".toList "db".toList
    [("id".toList, "INT".toList), ("name".toList, "VARCHAR(20)".toList)]
    (by decide) (by unfold is_identifier; decide) (by decide) (by decide)
    (by unfold is_identifier; decide) (by decide)

/-- Claim C7 as stated fails: "CREATE TABLE t (a INT()" has the claimed shape, with the
non-empty comma-free type text "INT(", and `table_create_alloc` returns `NULL` for it, as
the parenthesis that opens the column list is never closed. -/
theorem table_create_alloc_unclosed_type :
    table_create_alloc 64 (create_table_statement none "t".toList [("a".toList, "INT(".toList)])
      "db".toList = some none ∧
    create_table_statement none "t".toList [("a".toList, "INT(".toList)] =
      "CREATE TABLE t (a INT()".toList := by
  decide


/-! ## Avro schemas -/

theorem string_to_type_unknown (s : String) (h : ∀ entry ∈ types, s ≠ entry.1) :
    string_to_type s = MAXAVRO_TYPE_UNKNOWN := by
  unfold string_to_type
  have : types.find? (fun entry => decide (s = entry.1)) = none := by
    rw [List.find?_eq_none]
    intro e he
    simpa using h e he
  rw [this]

theorem unpack_to_type_array_eq (first : Json) (rest : List Json)
    (field : MAXAVRO_SCHEMA_FIELD) :
    unpack_to_type false (.array (first :: rest)) field =
      some (first_branch_type first,
        if first_branch_type first = MAXAVRO_TYPE_ENUM then { field with extra := some none }
        else field) := by
  cases first <;> simp [unpack_to_type, json_is_object, json_is_array, json_array_get,
    first_branch_type, json_unpack_o]
  split <;> simp_all

theorem unpack_to_type_object_eq (ss_debug : Bool) (members : List (String × Json))
    (field : MAXAVRO_SCHEMA_FIELD) (s : String)
    (hs : members.lookup "type" = some (.string s)) :
    unpack_to_type ss_debug (.object members) field =
      if string_to_type s = MAXAVRO_TYPE_ENUM then
        if ss_debug && !json_is_array (members.lookup "symbols") then none
        else some (string_to_type s, { field with extra := some (members.lookup "symbols") })
      else some (string_to_type s, field) := by
  simp only [unpack_to_type, json_is_object, json_is_array, json_unpack_o, hs]
  rfl

/-- Claim C8, the code at the schema document of the specification: the field "a", whose
"type" is the plain string "int", gets the type unknown although the vocabulary maps "int"
to int, because `unpack_to_type` looks for a type only in an object or an array; it
returns unknown for every plain string. -/
theorem plain_string_type_is_unknown :
    field_types (maxavro_schema_from_json false (some example_schema)) =
      some [some MAXAVRO_TYPE_UNKNOWN, some MAXAVRO_TYPE_LONG, some MAXAVRO_TYPE_NULL] ∧
    string_to_type "int" = MAXAVRO_TYPE_INT ∧
    ∀ (ss_debug : Bool) (s : String) (field : MAXAVRO_SCHEMA_FIELD),
      unpack_to_type ss_debug (.string s) field = some (MAXAVRO_TYPE_UNKNOWN, field) := by
  refine ⟨by decide, by decide, ?_⟩
  intro d s f
  rfl

/-- Claim C9 as stated fails: the union `[{"type":"long"}, "null"]` resolves to unknown,
while its first element `{"type":"long"}` as a bare type entry resolves to long. -/
theorem union_object_branch_counterexample :
    (unpack_to_type false (.array [.object [("type", .string "long")], .string "null"])
        { name := none, extra := none, type := none }).map Prod.fst =
      some MAXAVRO_TYPE_UNKNOWN ∧
    (unpack_to_type false (.object [("type", .string "long")])
        { name := none, extra := none, type := none }).map Prod.fst =
      some MAXAVRO_TYPE_LONG := by
  decide

/-- Claim C9, amended: for every field whose "type" value is a JSON array, the type resolved
by `unpack_to_type` is the vocabulary lookup of the first element when that is a string and
unknown when it is anything else (an object is not looked into) or the array is empty; the
result does not depend on the other elements, and a build with `SS_DEBUG` that returns gives
the same result; for `["null","string"]` the type is null. -/
theorem unpack_to_type_union (first : Json) (rest : List Json) (field : MAXAVRO_SCHEMA_FIELD) :
    (∀ s, first = .string s →
      (unpack_to_type false (.array (first :: rest)) field).map Prod.fst =
        some (string_to_type s)) ∧
    ((∀ s, first ≠ .string s) →
      (unpack_to_type false (.array (first :: rest)) field).map Prod.fst =
        some MAXAVRO_TYPE_UNKNOWN) ∧
    (∀ other : List Json,
      unpack_to_type false (.array (first :: rest)) field =
        unpack_to_type false (.array (first :: other)) field) ∧
    (∀ r, unpack_to_type true (.array (first :: rest)) field = some r →
      some r = unpack_to_type false (.array (first :: rest)) field) ∧
    (∀ ss_debug, unpack_to_type ss_debug (.array []) field =
      some (MAXAVRO_TYPE_UNKNOWN, field)) ∧
    (unpack_to_type false (.array [.string "null", .string "string"]) field).map Prod.fst =
      some MAXAVRO_TYPE_NULL := by
  refine ⟨?_, ?_, ?_, ?_, fun _ => rfl, ?_⟩
  · rintro s rfl
    rw [unpack_to_type_array_eq]; rfl
  · intro h
    rw [unpack_to_type_array_eq]
    cases first <;> first | rfl | exact absurd rfl (h _)
  · intro other
    rw [unpack_to_type_array_eq, unpack_to_type_array_eq]
  · intro r hr
    rw [← hr]
    cases first <;> simp_all [unpack_to_type, json_is_object, json_is_array, json_array_get,
      json_unpack_o]
  · rw [unpack_to_type_array_eq]; rfl

/-- Claim C9, amended, at the union `["double", {"type":"long"}]`. -/
theorem unpack_to_type_union_witness :
    (unpack_to_type false (.array [.string "double", .object [("type", .string "long")]])
        { name := some "x", extra := none, type := none }).map Prod.fst =
      some (string_to_type "double") :=
  (unpack_to_type_union (.string "double") [.object [("type", .string "long")]]
    { name := some "x", extra := none, type := none }).1 "double" rfl

theorem string_to_type_eq_spec (s : String) : string_to_type s = spec_primitive_type s := by
  by_cases h1 : s = "int"
  · subst h1; decide
  by_cases h2 : s = "long"
  · subst h2; decide
  by_cases h3 : s = "float"
  · subst h3; decide
  by_cases h4 : s = "double"
  · subst h4; decide
  by_cases h5 : s = "bool"
  · subst h5; decide
  by_cases h6 : s = "bytes"
  · subst h6; decide
  by_cases h7 : s = "string"
  · subst h7; decide
  by_cases h8 : s = "enum"
  · subst h8; decide
  by_cases h9 : s = "null"
  · subst h9; decide
  have hu : string_to_type s = MAXAVRO_TYPE_UNKNOWN := by
    apply string_to_type_unknown
    intro entry he
    simp only [types, List.mem_cons, List.mem_singleton, List.not_mem_nil, or_false] at he
    rcases he with rfl | rfl | rfl | rfl | rfl | rfl | rfl | rfl | rfl <;> assumption
  rw [hu]
  simp only [spec_primitive_type, h1, h2, h3, h4, h5, h6, h7, h8, h9, if_false]

/-- Claim C10: for every field whose "type" value is a JSON object with a "type" key holding
a string `s`, `unpack_to_type` resolves the vocabulary lookup of `s`: "int", "long",
"float", "double", "bool", "bytes", "string", "enum" and "null" give int, long, float,
double, bool, bytes, string, enum and null, and every `s` outside the vocabulary gives
unknown (in a build with `SS_DEBUG` too, whenever it returns); when the object has no "type"
key or that key is not a string the result is unknown; for `{"type":"long"}` the result is
long. -/
theorem unpack_to_type_object (members : List (String × Json)) (field : MAXAVRO_SCHEMA_FIELD) :
    (∀ s, members.lookup "type" = some (.string s) →
      (unpack_to_type false (.object members) field).map Prod.fst =
        some (spec_primitive_type s) ∧
      (∀ r, unpack_to_type true (.object members) field = some r →
        r.1 = spec_primitive_type s) ∧
      (s ∉ spec_vocabulary →
        unpack_to_type false (.object members) field = some (MAXAVRO_TYPE_UNKNOWN, field))) ∧
    ((∀ s, members.lookup "type" ≠ some (.string s)) →
      ∀ ss_debug, unpack_to_type ss_debug (.object members) field =
        some (MAXAVRO_TYPE_UNKNOWN, field)) ∧
    ((unpack_to_type false (.object [("type", .string "int")]) field).map Prod.fst =
        some MAXAVRO_TYPE_INT ∧
      (unpack_to_type false (.object [("type", .string "long")]) field).map Prod.fst =
        some MAXAVRO_TYPE_LONG ∧
      (unpack_to_type false (.object [("type", .string "float")]) field).map Prod.fst =
        some MAXAVRO_TYPE_FLOAT ∧
      (unpack_to_type false (.object [("type", .string "double")]) field).map Prod.fst =
        some MAXAVRO_TYPE_DOUBLE ∧
      (unpack_to_type false (.object [("type", .string "bool")]) field).map Prod.fst =
        some MAXAVRO_TYPE_BOOL ∧
      (unpack_to_type false (.object [("type", .string "bytes")]) field).map Prod.fst =
        some MAXAVRO_TYPE_BYTES ∧
      (unpack_to_type false (.object [("type", .string "string")]) field).map Prod.fst =
        some MAXAVRO_TYPE_STRING ∧
      (unpack_to_type false (.object [("type", .string "enum")]) field).map Prod.fst =
        some MAXAVRO_TYPE_ENUM ∧
      (unpack_to_type false (.object [("type", .string "null")]) field).map Prod.fst =
        some MAXAVRO_TYPE_NULL ∧
      (unpack_to_type false (.object [("type", .string "record")]) field).map Prod.fst =
        some MAXAVRO_TYPE_UNKNOWN) := by
  refine ⟨?_, ?_, ⟨rfl, rfl, rfl, rfl, rfl, rfl, rfl, rfl, rfl, rfl⟩⟩
  · intro s hs
    refine ⟨?_, ?_, ?_⟩
    · rw [unpack_to_type_object_eq false members field s hs, ← string_to_type_eq_spec]
      by_cases h : string_to_type s = MAXAVRO_TYPE_ENUM <;> simp [h]
    · intro r hr
      rw [unpack_to_type_object_eq true members field s hs] at hr
      rw [← string_to_type_eq_spec]
      by_cases h : string_to_type s = MAXAVRO_TYPE_ENUM
      · rw [if_pos h] at hr
        split at hr
        · exact absurd hr (by simp)
        · rw [← Option.some.inj hr]
      · rw [if_neg h] at hr
        rw [← Option.some.inj hr]
    · intro hv
      have hu : string_to_type s = MAXAVRO_TYPE_UNKNOWN := by
        rw [string_to_type_eq_spec]
        simp only [spec_vocabulary, List.mem_cons, List.mem_singleton, List.not_mem_nil,
          or_false, not_or] at hv
        obtain ⟨h1, h2, h3, h4, h5, h6, h7, h8, h9⟩ := hv
        simp only [spec_primitive_type, h1, h2, h3, h4, h5, h6, h7, h8, h9, if_false]
      rw [unpack_to_type_object_eq false members field s hs]
      simp [hu]
  · intro h d
    simp only [unpack_to_type, json_is_object, json_is_array, json_unpack_o]
    simp only [Bool.false_eq_true, if_false, if_true]

/-- Claim C10 at the object `{"type":"double","doc":null}`: the type is double. -/
theorem unpack_to_type_object_witness :
    (unpack_to_type false (.object [("type", .string "double"), ("doc", .null)])
        { name := some "x", extra := none, type := none }).map Prod.fst =
      some MAXAVRO_TYPE_DOUBLE :=
  ((unpack_to_type_object [("type", .string "double"), ("doc", .null)]
    { name := some "x", extra := none, type := none }).1 "double" rfl).1

/-! ## Table map versions -/

theorem table_map_alloc_version (version_string_size : Nat) (ptr : List Nat)
    (post_header_len : Nat) (map : TABLE_MAP)
    (h : table_map_alloc version_string_size ptr post_header_len = some map) :
    map.version = 1 ∧ map.version_string = snprintf_06d version_string_size 1 := by
  unfold table_map_alloc at h
  dsimp only at h
  repeat' split at h
  all_goals
    cases h
    try exact ⟨rfl, rfl⟩

theorem pad_decimal_length (n : Nat) (h : n < 10 ^ 6) : (pad_decimal 6 n).length = 6 := by
  have hd : (Nat.toDigits 10 n).length ≤ 6 :=
    Nat.toDigitsCore_length 10 (by norm_num) (n + 1) n 6 h (by norm_num)
  simp only [pad_decimal, List.length_append, List.length_replicate]
  omega

theorem snprintf_06d_fits (size : Nat) (v : Int) (h : (fmt_06d v).length < size) :
    snprintf_06d size v = fmt_06d v := by
  unfold snprintf_06d
  exact List.take_of_length_le (by omega)

/-- Claim C14 as stated fails: in a `version_string` of 7 bytes, six digits and the
terminator, rotating the map at version 999999 gives the version 1000000 with the label
"100000", cut by `snprintf`; and rotating a map at version `INT_MAX` overflows the `int`. -/
theorem table_map_rotate_truncates :
    (table_map_rotate 7 (table_map_at 999999)).map (fun m => (m.version, m.version_string)) =
      some (1000000, "100000".toList) ∧
    "100000".toList ≠ "1000000".toList ∧
    table_map_rotate 7 (table_map_at INT_MAX) = none := by
  decide

/-- Claim C14, amended: a map returned by `table_map_alloc` has version 1, and
`table_map_rotate` sets the version of every map below `INT_MAX` to the old version plus
one; both write as label the `%06d` form of the version, its decimal form zero-padded to
six digits, cut to what `version_string` holds beside the terminator, so that the label is
never truncated while it is shorter than the size of `version_string`: with at least 7
bytes the label of version 1 is "000001" and that of version 13 is "000013", with at least
8 bytes that of version 1000000 is "1000000". -/
theorem table_map_rotate_version (version_string_size : Nat) (map : TABLE_MAP)
    (hversion : map.version < INT_MAX) :
    (∃ rotated, table_map_rotate version_string_size map = some rotated ∧
      rotated.version = map.version + 1 ∧
      rotated.version_string = (fmt_06d (map.version + 1)).take (version_string_size - 1) ∧
      ((fmt_06d (map.version + 1)).length < version_string_size →
        rotated.version_string = fmt_06d (map.version + 1)) ∧
      (0 ≤ map.version + 1 → 7 ≤ version_string_size → map.version + 1 ≤ 999999 →
        rotated.version_string = pad_decimal 6 (map.version + 1).natAbs) ∧
      (map.version + 1 = 13 → 7 ≤ version_string_size →
        rotated.version_string = "000013".toList) ∧
      (map.version + 1 = 1000000 → 8 ≤ version_string_size →
        rotated.version_string = "1000000".toList)) ∧
    (∀ ptr post_header_len allocated,
      table_map_alloc version_string_size ptr post_header_len = some allocated →
      allocated.version = 1 ∧
      (7 ≤ version_string_size → allocated.version_string = "000001".toList)) := by
  have hfit : ∀ v : Int, ∀ n, (fmt_06d v).length ≤ n →
      (fmt_06d v).take n = fmt_06d v := fun v n h => List.take_of_length_le h
  constructor
  · refine ⟨_, by rw [table_map_rotate, if_pos hversion], rfl, rfl, ?_, ?_, ?_, ?_⟩
    · intro h
      exact snprintf_06d_fits _ _ h
    · intro h0 h7 h6
      show (fmt_06d (map.version + 1)).take (version_string_size - 1) = _
      have hf : fmt_06d (map.version + 1) = pad_decimal 6 (map.version + 1).natAbs := by
        unfold fmt_06d
        rw [if_neg (by omega)]
      rw [hf]
      apply List.take_of_length_le
      have hd := pad_decimal_length (map.version + 1).natAbs (by omega)
      omega
    · intro h h7
      show (fmt_06d (map.version + 1)).take (version_string_size - 1) = _
      rw [h]
      exact hfit 13 _ (by
        have : (fmt_06d 13).length = 6 := by decide
        omega)
    · intro h h8
      show (fmt_06d (map.version + 1)).take (version_string_size - 1) = _
      rw [h]
      exact hfit 1000000 _ (by
        have : (fmt_06d 1000000).length = 7 := by decide
        omega)
  · intro ptr phl allocated h
    obtain ⟨h1, h2⟩ := table_map_alloc_version _ _ _ _ h
    refine ⟨h1, ?_⟩
    intro h7
    rw [h2]
    exact hfit 1 _ (by
      have : (fmt_06d 1).length = 6 := by decide
      omega)

/-- Claim C14, amended, at a map of version 12 in a `version_string` of 7 bytes: the
rotation gives version 13 and the label "000013". -/
theorem table_map_rotate_version_witness :
    (table_map_at 12).version < INT_MAX ∧
    ∃ rotated, table_map_rotate 7 (table_map_at 12) = some rotated ∧
      rotated.version = 13 ∧ rotated.version_string = "000013".toList := by
  obtain ⟨⟨r, h1, h2, _, _, _, h13, _⟩, _⟩ :=
    table_map_rotate_version 7 (table_map_at 12) (by decide)
  exact ⟨by decide, r, h1, h2, h13 rfl (by decide)⟩


/-! ## Temporal values: TIME and TIMESTAMP -/

/-- Claim C15 as stated fails: for the 64-bit raw value `10000 * 2^32` the hour stored by
`unpack_time` is 0 and not `v / 10000`, as the hour passes through a `uint32_t`. -/
theorem unpack_time_hour_counterexample :
    10000 * 2 ^ 32 < 2 ^ 64 ∧
    (unpack_temporal_value TABLE_COL_TYPE_TIME (10000 * 2 ^ 32) tm_zero).tm_hour = 0 ∧
    (unpack_temporal_value TABLE_COL_TYPE_TIME (10000 * 2 ^ 32) tm_zero).tm_hour ≠
      ((10000 * 2 ^ 32 / 10000 : Nat) : Int) := by
  decide

/-- Claim C15, amended: for every 64-bit raw value `v`, `unpack_temporal_value` for TIME
stores second `v mod 100` and minute `(v / 100) mod 100`, leaves year, month and day zero,
and stores the hour `v / 10000`, with no reduction (it may exceed 23), whenever
`v / 10000` is below `2^31`, as for every 3-byte value. -/
theorem unpack_time_components (v : Nat) (tm : Tm) (hv : v < 2 ^ 64) :
    (unpack_temporal_value TABLE_COL_TYPE_TIME v tm).tm_sec = ((v % 100 : Nat) : Int) ∧
    (unpack_temporal_value TABLE_COL_TYPE_TIME v tm).tm_min = ((v / 100 % 100 : Nat) : Int) ∧
    (v / 10000 < 2 ^ 31 →
      (unpack_temporal_value TABLE_COL_TYPE_TIME v tm).tm_hour = ((v / 10000 : Nat) : Int)) ∧
    (v < 2 ^ 24 →
      (unpack_temporal_value TABLE_COL_TYPE_TIME v tm).tm_hour = ((v / 10000 : Nat) : Int)) ∧
    (unpack_temporal_value TABLE_COL_TYPE_TIME v tm).tm_year = 0 ∧
    (unpack_temporal_value TABLE_COL_TYPE_TIME v tm).tm_mon = 0 ∧
    (unpack_temporal_value TABLE_COL_TYPE_TIME v tm).tm_mday = 0 ∧
    (unpack_temporal_value TABLE_COL_TYPE_TIME 8385959 tm).tm_hour = 838 := by
  have hsub : ∀ x : Nat, x - x / 100 * 100 = x % 100 := by intro x; omega
  have hu : ∀ x : Nat, to_int (to_uint32 (x % 100)) = ((x % 100 : Nat) : Int) := by
    intro x
    have : to_uint32 (x % 100) = x % 100 := by unfold to_uint32; omega
    rw [this, to_int_of_lt _ (by omega)]
  have hh : v / 10000 < 2 ^ 31 →
      to_int (to_uint32 (v / 100 / 100)) = ((v / 10000 : Nat) : Int) := by
    intro h
    have e : v / 100 / 100 = v / 10000 := by omega
    have : to_uint32 (v / 10000) = v / 10000 := by unfold to_uint32; omega
    rw [e, this, to_int_of_lt _ h]
  have hunpack : ∀ w, unpack_temporal_value TABLE_COL_TYPE_TIME w tm = unpack_time w := by
    intro w; rfl
  rw [hunpack]
  refine ⟨?_, ?_, ?_, ?_, rfl, rfl, rfl, ?_⟩
  · simp only [unpack_time, hsub, hu]
  · simp only [unpack_time, hsub, hu]
  · intro h
    simp only [unpack_time, hh h]
  · intro h
    simp only [unpack_time, hh (by omega)]
  · rw [hunpack]; decide

/-- Claim C15, amended, at the largest TIME of MySQL, 838:59:59. -/
theorem unpack_time_components_witness :
    (8385959 : Nat) < 2 ^ 64 ∧ 8385959 / 10000 < 2 ^ 31 ∧
    (unpack_temporal_value TABLE_COL_TYPE_TIME 8385959 tm_zero).tm_hour =
      ((8385959 / 10000 : Nat) : Int) :=
  ⟨by norm_num, by norm_num,
    (unpack_time_components 8385959 tm_zero (by norm_num)).2.2.1 (by norm_num)⟩

/-- Claim C17: for every raw value, `unpack_temporal_value` for TIMESTAMP yields components
that are all zero, and `format_temporal_value` for TIMESTAMP yields the empty string for any
components, in every build, in a buffer that has room for the terminator. -/
theorem timestamp_unimplemented (v : Nat) (tm : Tm) (ss_debug : Bool) (size : Nat)
    (hsize : 1 ≤ size) :
    unpack_temporal_value TABLE_COL_TYPE_TIMESTAMP v tm = tm_zero ∧
    (unpack_temporal_value TABLE_COL_TYPE_TIMESTAMP v tm).tm_year = 0 ∧
    (unpack_temporal_value TABLE_COL_TYPE_TIMESTAMP v tm).tm_mon = 0 ∧
    (unpack_temporal_value TABLE_COL_TYPE_TIMESTAMP v tm).tm_mday = 0 ∧
    (unpack_temporal_value TABLE_COL_TYPE_TIMESTAMP v tm).tm_hour = 0 ∧
    (unpack_temporal_value TABLE_COL_TYPE_TIMESTAMP v tm).tm_min = 0 ∧
    (unpack_temporal_value TABLE_COL_TYPE_TIMESTAMP v tm).tm_sec = 0 ∧
    format_temporal_value ss_debug size TABLE_COL_TYPE_TIMESTAMP tm = some [] := by
  have h : unpack_temporal_value TABLE_COL_TYPE_TIMESTAMP v tm = tm_zero := rfl
  refine ⟨h, by rw [h]; rfl, by rw [h]; rfl, by rw [h]; rfl, by rw [h]; rfl, by rw [h]; rfl,
    by rw [h]; rfl, ?_⟩
  have hf : format_temporal_value ss_debug size TABLE_COL_TYPE_TIMESTAMP tm =
      strftime size [] tm := rfl
  rw [hf]
  simp only [strftime, strftime_expand, List.length_nil]
  rw [if_pos (by omega)]

/-- Claim C17 at the raw value 1466000000 and a buffer of 20 bytes. -/
theorem timestamp_unimplemented_witness :
    unpack_temporal_value TABLE_COL_TYPE_TIMESTAMP 1466000000 (unpack_datetime 20230615123045) =
      tm_zero ∧
    format_temporal_value false 20 TABLE_COL_TYPE_TIMESTAMP (unpack_datetime 20230615123045) =
      some [] :=
  ⟨(timestamp_unimplemented 1466000000 (unpack_datetime 20230615123045) false 20
      (by decide)).1,
    (timestamp_unimplemented 1466000000 (unpack_datetime 20230615123045) false 20
      (by decide)).2.2.2.2.2.2.2⟩

/-! ## CREATE TABLE statements: the definition span and the scan for names -/

theorem takeWhile_all (p : Char → Bool) (l : List Char) (h : ∀ c ∈ l, p c = true) :
    l.takeWhile p = l := by
  induction l with
  | nil => rfl
  | cons x xs ih =>
    rw [List.takeWhile_cons, h x (List.mem_cons_self _ _)]
    simp only [if_true]
    rw [ih (fun c hc => h c (List.mem_cons_of_mem _ hc))]

theorem takeWhile_ne_paren (l : List Char) (h : '(' ∉ l) :
    l.takeWhile (fun c => c != '(') = l := by
  apply takeWhile_all
  intro c hc
  have : c ≠ '(' := fun e => h (e ▸ hc)
  simpa using this

theorem get_table_definition_no_paren (sql : List Char) (h : '(' ∉ sql) :
    get_table_definition sql = none := by
  unfold get_table_definition
  simp only [takeWhile_ne_paren sql h]
  rw [if_neg (by omega)]

theorem get_table_definition_short (pre tail : List Char) (hpre : '(' ∉ pre)
    (htail : tail.length < 2) : get_table_definition (pre ++ '(' :: tail) = none := by
  have htake : (pre ++ '(' :: tail).takeWhile (fun c => c != '(') = pre := by
    apply takeWhile_append_stop
    · intro c hc
      have : c ≠ '(' := fun e => hpre (e ▸ hc)
      simpa using this
    · simp
  unfold get_table_definition
  simp only [htake]
  rw [if_neg]
  simp only [List.length_append, List.length_cons]
  push_cast
  omega

/-- Claim C16: for every SQL statement that contains no `(`, `table_create_alloc` returns
`NULL`, whatever else the statement contains. -/
theorem table_create_alloc_no_paren (MYSQL_TABLE_MAXLEN : Nat) (sql db : List Char)
    (h : '(' ∉ sql) : table_create_alloc MYSQL_TABLE_MAXLEN sql db = some none := by
  unfold table_create_alloc
  simp only [get_table_definition_no_paren sql h, get_table_name, strchr_not_mem sql '(' h]
  rfl

/-- Claim C16 at a statement with spaces and commas and no parenthesis. -/
theorem table_create_alloc_no_paren_witness :
    '(' ∉ "SELECT a, b FROM t".toList ∧
    table_create_alloc 64 "SELECT a, b FROM t".toList "db".toList = some none :=
  ⟨by decide, table_create_alloc_no_paren 64 "SELECT a, b FROM t".toList "db".toList (by decide)⟩

theorem nesting_depth_cons (c : Char) (l : List Char) :
    nesting_depth (c :: l) =
      (if c = '(' then 1 else if c = ')' then -1 else 0) + nesting_depth l := by
  unfold nesting_depth
  by_cases h1 : c = '('
  · subst h1
    rw [List.count_cons_self, List.count_cons_of_ne (by decide)]
    simp only [if_true]
    push_cast
    ring
  · by_cases h2 : c = ')'
    · subst h2
      rw [List.count_cons_self, List.count_cons_of_ne (by decide)]
      simp only [show ¬ (')' = '(') by decide, if_false, if_true]
      push_cast
      ring
    · rw [List.count_cons_of_ne (Ne.symm h1), List.count_cons_of_ne (Ne.symm h2)]
      simp only [h1, h2, if_false]
      ring

theorem scan_definition_first_negative (tail : List Char) :
    ∀ (depth : Int) (k0 k : Nat), k < tail.length →
      depth + nesting_depth (tail.take (k + 1)) < 0 →
      (∀ j, j ≤ k → 0 ≤ depth + nesting_depth (tail.take j)) →
      scan_definition tail depth k0 = some (k0 + k) := by
  induction tail with
  | nil => intro _ _ k hk; simp at hk
  | cons c rest ih =>
    intro depth k0 k hk hneg hfirst
    have h1 := hfirst 1
    simp only [scan_definition]
    cases k with
    | zero =>
      simp only [List.take_succ_cons, List.take_zero, nesting_depth_cons] at hneg
      have hn : nesting_depth [] = 0 := rfl
      rw [hn] at hneg
      rw [if_pos (by split_ifs at hneg ⊢ <;> omega)]
      rfl
    | succ k =>
      have h1' := h1 (by omega)
      simp only [List.take_succ_cons, List.take_zero, nesting_depth_cons] at h1'
      have hn : nesting_depth [] = 0 := rfl
      rw [hn] at h1'
      rw [if_neg (by split_ifs at h1' ⊢ <;> omega)]
      have := ih (if c = '(' then depth + 1 else if c = ')' then depth - 1 else depth)
        (k0 + 1) k (by simpa using hk)
        (by
          simp only [List.take_succ_cons, nesting_depth_cons] at hneg
          split_ifs at hneg ⊢ <;> omega)
        (by
          intro j hj
          have := hfirst (j + 1) (by omega)
          simp only [List.take_succ_cons, nesting_depth_cons] at this
          split_ifs at this ⊢ <;> omega)
      rw [this]
      congr 1
      omega

/-- Claim C20: for every statement whose first `(` is at index `p` with `p < length - 2`
and in which the nesting depth counted from `p + 1` first becomes negative at index
`q = p + 1 + k`, `get_table_definition` returns the span that starts at `p + 1` and has
the length `q - (p + 1)`, exclusive of the character at `q`; it fails when the statement
has no `(` and when the first `(` lies within the last two characters. -/
theorem get_table_definition_span (pre tail : List Char) (k : Nat)
    (hpre : '(' ∉ pre)
    (hlen : (pre.length : Int) < ((pre ++ '(' :: tail).length : Int) - 2)
    (hk : k < tail.length)
    (hneg : nesting_depth (tail.take (k + 1)) < 0)
    (hfirst : ∀ j, j ≤ k → 0 ≤ nesting_depth (tail.take j)) :
    get_table_definition (pre ++ '(' :: tail) =
      some (pre.length + 1, (pre.length + 1 + k) - (pre.length + 1)) ∧
    (pre ++ '(' :: tail).get? pre.length = some '(' ∧
    ((pre ++ '(' :: tail).drop (pre.length + 1)).take k = tail.take k ∧
    (∀ sql, '(' ∉ sql → get_table_definition sql = none) ∧
    (∀ before rest, '(' ∉ before → rest.length < 2 →
      get_table_definition (before ++ '(' :: rest) = none) := by
  have htake : (pre ++ '(' :: tail).takeWhile (fun c => c != '(') = pre := by
    apply takeWhile_append_stop
    · intro c hc
      have : c ≠ '(' := fun e => hpre (e ▸ hc)
      simpa using this
    · simp
  have hdrop : (pre ++ '(' :: tail).drop (pre.length + 1) = tail := by
    rw [List.drop_append_eq_append_drop]
    simp
  have hscan := scan_definition_first_negative tail 0 0 k hk (by simpa using hneg)
    (by intro j hj; simpa using hfirst j hj)
  refine ⟨?_, ?_, by rw [hdrop], get_table_definition_no_paren, get_table_definition_short⟩
  · unfold get_table_definition
    simp only [htake, hdrop, hscan]
    rw [if_pos hlen]
    simp
  · rw [List.get?_eq_getElem?, List.getElem?_append_right (le_refl _)]
    simp

/-- Claim C20 at the statement of the specification: the first `(` is at index 19, the
depth becomes negative at index 44, and the span starts at 20 with the length 24. -/
theorem get_table_definition_span_witness :
    get_table_definition "CREATE TABLE db.t1 (id INT, name VARCHAR(20))".toList =
      some (20, 24) := by
  have h := (get_table_definition_span "CREATE TABLE db.t1 ".toList
    "id INT, name VARCHAR(20))".toList 24 (by decide) (by decide) (by decide) (by decide)
    (by decide)).1
  exact h

/-- Claim C19, the code at two statements that differ only after the `)` closing the column
list: "CREATE TABLE t (a INT)" gives the one column "a", and
"CREATE TABLE t (a INT) COMMENT='x, y z'" gives the two columns "a" and "y", although
`get_table_definition` returns the same span, offset 16 and length 5, for both: the scan
for names runs to the end of the statement and not to the end of the span. -/
theorem trailing_text_adds_column :
    "CREATE TABLE t (a INT) COMMENT='x, y z'".toList.take 22 = "CREATE TABLE t (a INT)".toList ∧
    get_table_definition "CREATE TABLE t (a INT)".toList = some (16, 5) ∧
    get_table_definition "CREATE TABLE t (a INT) COMMENT='x, y z'".toList = some (16, 5) ∧
    table_create_alloc 64 "CREATE TABLE t (a INT)".toList "db".toList =
      some (some { column_names := ["a".toList], columns := 1, database := "db".toList,
                   table := "t".toList, gtid := [] }) ∧
    table_create_alloc 64 "CREATE TABLE t (a INT) COMMENT='x, y z'".toList "db".toList =
      some (some { column_names := ["a".toList, "y".toList], columns := 2,
                   database := "db".toList, table := "t".toList, gtid := [] }) := by
  decide

/-- Claim C18 as stated fails: for "CREATE TABLE t (a,b INT)" the names are "a,b" and "b".
The chunk "a" holds no space and still gives a name, which runs to the first space of the
statement and holds a comma. -/
theorem chunk_without_space_counterexample :
    table_create_alloc 64 "CREATE TABLE t (a,b INT)".toList "db".toList =
      some (some { column_names := ["a,b".toList, "b".toList], columns := 2,
                   database := "db".toList, table := "t".toList, gtid := [] }) ∧
    ',' ∈ "a,b".toList := by
  decide

theorem strchr_isSome_iff (l : List Char) (c : Char) : (∃ r, strchr l c = some r) ↔ c ∈ l := by
  induction l with
  | nil => simp [strchr]
  | cons x xs ih =>
    simp only [strchr, List.mem_cons]
    by_cases h : x = c
    · simp [h]
    · rw [if_neg h, ih]
      constructor
      · intro hm; exact Or.inr hm
      · rintro (hm | hm)
        · exact absurd hm.symm h
        · exact hm

theorem after_commas_strchr (l : List Char) :
    after_commas l =
      match strchr l ',' with
      | some r => r.drop 1 :: after_commas (r.drop 1)
      | none => [] := by
  induction l with
  | nil => rfl
  | cons x xs ih =>
    by_cases h : x = ','
    · simp [after_commas, strchr, h]
    · simp only [after_commas, strchr, if_neg h]
      exact ih

theorem after_commas_dropWhile (l : List Char) :
    after_commas (l.dropWhile isspace) = after_commas l := by
  induction l with
  | nil => rfl
  | cons x xs ih =>
    rw [List.dropWhile_cons]
    by_cases h : isspace x = true
    · rw [if_pos h, ih]
      have hx : x ≠ ',' := by
        intro e
        subst e
        exact absurd h (by decide)
      simp only [after_commas, if_neg hx]
    · rw [if_neg h]

theorem chunk_names_unfold (text : List Char) :
    (chunk_starts text).filterMap name_at =
      (name_at text).toList ++
        match strchr (text.dropWhile isspace) ',' with
        | some r => (chunk_starts (r.drop 1)).filterMap name_at
        | none => [] := by
  unfold chunk_starts
  rw [← after_commas_dropWhile text, after_commas_strchr (text.dropWhile isspace)]
  cases hn : name_at text <;> cases hc : strchr (text.dropWhile isspace) ',' <;>
    simp [List.filterMap_cons, hn]

/-- The loop returns whenever every name it reads fits `colname`. -/
theorem column_names_loop_returns (fuel : Nat) :
    ∀ (text : List Char) (names : List (List Char)), text.length < fuel →
      (∀ n ∈ (chunk_starts text).filterMap name_at, n.length ≤ 64) →
      column_names_loop fuel text names =
        some (names ++ (chunk_starts text).filterMap name_at) := by
  induction fuel with
  | zero => intro _ _ h; omega
  | succ fuel ih =>
    intro text names hfuel hshort
    have hd := dropWhile_length_le isspace text
    rw [chunk_names_unfold] at hshort ⊢
    simp only [column_names_loop]
    by_cases hsp : ' ' ∈ text.dropWhile isspace
    · obtain ⟨r, hr⟩ := (strchr_isSome_iff _ _).mpr hsp
      have hname : name_at text =
          some ((text.dropWhile isspace).takeWhile (fun c => c != ' ')) := by
        simp only [name_at, hsp, if_true]
      rw [hname] at hshort ⊢
      have h64 : ¬ 64 < ((text.dropWhile isspace).takeWhile (fun c => c != ' ')).length := by
        have := hshort _ (List.mem_append_left _ (List.mem_singleton.mpr rfl))
        omega
      rw [hr]
      simp only [if_neg h64]
      cases hc : strchr (text.dropWhile isspace) ',' with
      | none => simp
      | some rest =>
        have hl := strchr_length _ _ _ hc
        rw [hc] at hshort
        simp only
        rw [ih _ _ (by simp only [List.length_drop]; omega)
          (fun n hn => hshort n (List.mem_append_right _ hn))]
        simp
    · have hnone : strchr (text.dropWhile isspace) ' ' = none := by
        cases hs : strchr (text.dropWhile isspace) ' ' with
        | none => rfl
        | some r => exact absurd ((strchr_isSome_iff _ _).mp ⟨r, hs⟩) hsp
      have hname : name_at text = none := by
        simp only [name_at, hsp, if_false]
      rw [hname] at hshort ⊢
      rw [hnone]
      cases hc : strchr (text.dropWhile isspace) ',' with
      | none => simp
      | some rest =>
        have hl := strchr_length _ _ _ hc
        rw [hc] at hshort
        simp only
        rw [ih _ _ (by simp only [List.length_drop]; omega)
          (fun n hn => hshort n (List.mem_append_right _ hn))]
        simp

theorem column_names_loop_chunks (fuel : Nat) :
    ∀ (text : List Char) (names result : List (List Char)), text.length < fuel →
      column_names_loop fuel text names = some result →
      result = names ++ (chunk_starts text).filterMap name_at ∧
      ∀ n ∈ (chunk_starts text).filterMap name_at, n.length ≤ 64 := by
  induction fuel with
  | zero => intro _ _ _ h; omega
  | succ fuel ih =>
    intro text names result hfuel h
    have hd := dropWhile_length_le isspace text
    have hstarts : (chunk_starts text).filterMap name_at =
        (name_at text).toList ++
          match strchr (text.dropWhile isspace) ',' with
          | some r => (chunk_starts (r.drop 1)).filterMap name_at
          | none => [] := by
      unfold chunk_starts
      rw [← after_commas_dropWhile text, after_commas_strchr (text.dropWhile isspace)]
      cases hn : name_at text <;> cases hc : strchr (text.dropWhile isspace) ',' <;>
        simp [List.filterMap_cons, hn]
    rw [hstarts]
    simp only [column_names_loop] at h
    by_cases hsp : ' ' ∈ text.dropWhile isspace
    · obtain ⟨r, hr⟩ := (strchr_isSome_iff _ _).mpr hsp
      have hname : name_at text =
          some ((text.dropWhile isspace).takeWhile (fun c => c != ' ')) := by
        simp only [name_at, hsp, if_true]
      rw [hr] at h
      simp only at h
      split at h
      · exact absurd h (by simp)
      · rename_i names' hcol
        split at hcol
        · exact absurd hcol (by simp)
        · rename_i hshort
          cases hcol
          rw [hname]
          split at h
          · rename_i rest hrest
            have hl := strchr_length _ _ _ hrest
            obtain ⟨h1, h2⟩ := ih _ _ _ (by simp only [List.length_drop]; omega) h
            rw [h1]
            try rw [hrest]
            refine ⟨by simp, ?_⟩
            intro n hn
            simp only [Option.toList, List.singleton_append, List.mem_cons] at hn
            rcases hn with rfl | hn
            · omega
            · exact h2 n hn
          · rename_i hcomma
            cases h
            try rw [hcomma]
            refine ⟨by simp, ?_⟩
            intro n hn
            simp only [Option.toList, List.append_nil, List.mem_singleton] at hn
            subst hn
            omega
    · have hnone : strchr (text.dropWhile isspace) ' ' = none := by
        cases hs : strchr (text.dropWhile isspace) ' ' with
        | none => rfl
        | some r => exact absurd ((strchr_isSome_iff _ _).mp ⟨r, hs⟩) hsp
      have hname : name_at text = none := by
        simp only [name_at, hsp, if_false]
      rw [hnone] at h
      simp only at h
      rw [hname]
      split at h
      · rename_i rest hrest
        have hl := strchr_length _ _ _ hrest
        obtain ⟨h1, h2⟩ := ih _ _ _ (by simp only [List.length_drop]; omega) h
        rw [h1]
        try rw [hrest]
        refine ⟨by simp, ?_⟩
        intro n hn
        exact h2 n (by simpa using hn)
      · rename_i hcomma
        cases h
        try rw [hcomma]
        refine ⟨by simp, ?_⟩
        intro n hn
        simp at hn

theorem scan_definition_stops (l : List Char) :
    ∀ (depth : Int) (k0 size : Nat), 0 ≤ depth → scan_definition l depth k0 = some size →
      k0 ≤ size ∧ l.get? (size - k0) = some ')' := by
  induction l with
  | nil => intro _ _ _ _ h; simp [scan_definition] at h
  | cons c rest ih =>
    intro depth k0 size h0 h
    simp only [scan_definition] at h
    by_cases hneg : (if c = '(' then depth + 1 else if c = ')' then depth - 1 else depth) < 0
    · rw [if_pos hneg] at h
      cases h
      have hc : c = ')' := by
        by_contra hne
        split_ifs at hneg <;> omega
      simp [hc]
    · rw [if_neg hneg] at h
      obtain ⟨h1, h2⟩ := ih _ _ _ (by omega) h
      refine ⟨by omega, ?_⟩
      have e : size - k0 = (size - (k0 + 1)) + 1 := by omega
      rw [e]
      simpa using h2

theorem dropWhile_head (p : Char → Bool) (l : List Char) :
    ∀ c rest, l.dropWhile p = c :: rest → p c = false := by
  induction l with
  | nil => intro c rest h; simp at h
  | cons x xs ih =>
    intro c rest h
    rw [List.dropWhile_cons] at h
    split at h
    · exact ih c rest h
    · rename_i hx
      cases h
      simpa using hx

theorem name_at_properties (chunk_start n : List Char) (h : name_at chunk_start = some n) :
    ' ' ∉ n ∧ n ≠ [] ∧ (∀ c, n.head? = some c → isspace c = false) := by
  unfold name_at at h
  simp only at h
  split at h
  · rename_i hsp
    cases h
    have hhead := dropWhile_head isspace chunk_start
    obtain ⟨c, rest, hc⟩ := List.exists_cons_of_ne_nil (List.ne_nil_of_mem hsp)
    have hcs := hhead c rest hc
    have hcne : c ≠ ' ' := by
      intro e
      subst e
      exact absurd hcs (by decide)
    refine ⟨?_, ?_, ?_⟩
    · intro hmem
      have := List.mem_takeWhile_imp hmem
      simp at this
    · rw [hc, List.takeWhile_cons]
      simp [hcne]
    · intro c' hc'
      rw [hc, List.takeWhile_cons] at hc'
      simp [hcne] at hc'
      subst hc'
      exact hcs
  · exact absurd h (by simp)

/-- Claim C18, amended: for every statement that ends with the `)` closing its column
list, the column names returned by `table_create_alloc` are read at the starts of the
comma-delimited chunks of the definition, in order: after the leading whitespace of a chunk,
the name is the text up to, not including, the first space that follows, in this chunk or
in a later one, and a chunk gives no name only when no space follows it at all. No
returned name holds a space, starts with whitespace, is empty or is longer than 64
characters; a name can hold commas. -/
theorem table_create_alloc_column_names (MYSQL_TABLE_MAXLEN : Nat) (sql db : List Char)
    (created : TABLE_CREATE) (start size : Nat)
    (hdef : get_table_definition sql = some (start, size))
    (hend : sql.length = start + size + 1)
    (h : table_create_alloc MYSQL_TABLE_MAXLEN sql db = some (some created)) :
    sql.drop start = (sql.drop start).take size ++ [')'] ∧
    created.column_names =
      (chunk_starts ((sql.drop start).take size ++ [')'])).filterMap name_at ∧
    created.columns = created.column_names.length ∧
    (∀ n ∈ created.column_names,
      (∃ chunk_start ∈ chunk_starts ((sql.drop start).take size ++ [')']),
        name_at chunk_start = some n) ∧
      ' ' ∉ n ∧ n ≠ [] ∧ (∀ c, n.head? = some c → isspace c = false) ∧ n.length ≤ 64) := by
  have hscan : scan_definition (sql.drop start) 0 0 = some size := by
    unfold get_table_definition at hdef
    simp only at hdef
    split at hdef
    · split at hdef
      · rename_i s hs
        cases hdef
        exact hs
      · exact absurd hdef (by simp)
    · exact absurd hdef (by simp)
  obtain ⟨_, hclose⟩ := scan_definition_stops _ _ _ _ (le_refl _) hscan
  have hlen : (sql.drop start).length = size + 1 := by
    rw [List.length_drop]; omega
  have htext : sql.drop start = (sql.drop start).take size ++ [')'] := by
    conv_lhs => rw [← List.take_append_drop size (sql.drop start)]
    congr 1
    have hd : ((sql.drop start).drop size).length = 1 := by
      rw [List.length_drop]; omega
    have hh : ((sql.drop start).drop size).head? = some ')' := by
      rw [List.head?_drop]
      simpa using hclose
    match hm : (sql.drop start).drop size, hd, hh with
    | [x], _, hx => simp at hx; rw [hx]
  refine ⟨htext, ?_⟩
  rw [← htext]
  unfold table_create_alloc at h
  simp only [hdef] at h
  split at h
  · exact absurd h (by simp)
  · rename_i table htable
    split at h
    · exact absurd h (by simp)
    · rename_i names hnames
      obtain ⟨hres, hshort⟩ := column_names_loop_chunks _ _ _ _ (by
        rw [List.length_drop]; omega) hnames
      simp only [List.nil_append] at hres
      split at h
      · split at h
        · cases h
          refine ⟨hres, rfl, ?_⟩
          intro n hn
          rw [hres] at hn
          obtain ⟨cs, hcs, hname⟩ := List.mem_filterMap.mp hn
          obtain ⟨p1, p2, p3⟩ := name_at_properties cs n hname
          exact ⟨⟨cs, hcs, hname⟩, p1, p2, p3, hshort n hn⟩
        · exact absurd h (by simp)
      · exact absurd h (by simp)

/-- Claim C18, amended, at the statement "CREATE TABLE t (a,b INT)": the names are "a,b",
read at the start of the definition, and "b", read behind the comma. -/
theorem table_create_alloc_column_names_witness :
    ∃ created, table_create_alloc 64 "CREATE TABLE t (a,b INT)".toList "db".toList =
        some (some created) ∧
      created.column_names = (chunk_starts "a,b INT)".toList).filterMap name_at ∧
      created.column_names = ["a,b".toList, "b".toList] := by
  have h : table_create_alloc 64 "CREATE TABLE t (a,b INT)".toList "db".toList =
      some (some { column_names := ["a,b".toList, "b".toList], columns := 2,
                   database := "db".toList, table := "t".toList, gtid := [] }) := by
    decide
  have hc := (table_create_alloc_column_names 64 "CREATE TABLE t (a,b INT)".toList
    "db".toList _ 16 7 (by decide) (by decide) h).2.1
  exact ⟨_, h, hc, rfl⟩

/-! ## Avro schemas: the fields of a schema -/

theorem unpack_to_type_unfold (ss_debug : Bool) (object : Json) (field : MAXAVRO_SCHEMA_FIELD) :
    unpack_to_type ss_debug object field =
      match (if json_is_array (some object) then json_array_get (some object) 0
             else if json_is_object object then json_unpack_o object "type" else none) with
      | some (.string value) =>
        if string_to_type value = MAXAVRO_TYPE_ENUM then
          if ss_debug && !json_is_array (json_unpack_o object "symbols") then none
          else some (string_to_type value,
            { field with extra := some (json_unpack_o object "symbols") })
        else some (string_to_type value, field)
      | _ => some (MAXAVRO_TYPE_UNKNOWN, field) := rfl

theorem unpack_to_type_release (object : Json) (field : MAXAVRO_SCHEMA_FIELD) :
    ∃ type field', unpack_to_type false object field = some (type, field') ∧
      field'.name = field.name := by
  rw [unpack_to_type_unfold]
  split
  · split
    · exact ⟨_, _, rfl, rfl⟩
    · exact ⟨_, _, rfl, rfl⟩
  · exact ⟨_, _, rfl, rfl⟩

theorem unpack_to_type_debug (object : Json) (field : MAXAVRO_SCHEMA_FIELD)
    (r : maxavro_value_type × MAXAVRO_SCHEMA_FIELD)
    (h : unpack_to_type true object field = some r) :
    unpack_to_type false object field = some r := by
  rw [unpack_to_type_unfold] at h ⊢
  split at h
  · rename_i value hv
    by_cases he : string_to_type value = MAXAVRO_TYPE_ENUM
    · simp only [he, if_true] at h ⊢
      split at h
      · exact absurd h (by simp)
      · simpa using h
    · simp only [he, if_false] at h ⊢
      exact h
  · exact h

theorem read_field_debug (object : Json) (field : MAXAVRO_SCHEMA_FIELD)
    (h : read_field true object = some field) : read_field false object = some field := by
  unfold read_field at h ⊢
  cases hk : json_unpack_name_type (some object) with
  | none => rw [hk] at h; exact absurd h (by simp)
  | some kv =>
    obtain ⟨key, value_obj⟩ := kv
    rw [hk] at h
    dsimp only at h ⊢
    cases hu : unpack_to_type true value_obj { name := some key, extra := none, type := none } with
    | none => rw [hu] at h; exact absurd h (by simp)
    | some r =>
      rw [hu] at h
      rw [unpack_to_type_debug _ _ _ hu]
      exact h

theorem read_field_release (members : List (String × Json)) (key : String) (v : Json)
    (hname : members.lookup "name" = some (.string key))
    (htype : members.lookup "type" = some v) :
    ∃ field, read_field false (.object members) = some field ∧ field.name = some key := by
  obtain ⟨type, field', h, hn⟩ := unpack_to_type_release v
    { name := some key, extra := none, type := none }
  simp only [read_field, json_unpack_name_type, hname, htype, h]
  exact ⟨_, rfl, hn⟩

theorem read_fields_debug (elements : List Json) :
    ∀ fields, read_fields true elements = some fields →
      read_fields false elements = some fields := by
  induction elements with
  | nil => intro fields h; exact h
  | cons e rest ih =>
    intro fields h
    simp only [read_fields] at h ⊢
    split at h
    · rename_i f fs hf hfs
      rw [read_field_debug _ _ hf, ih _ hfs]
      exact h
    · exact absurd h (by simp)

theorem read_fields_release (elements : List Json)
    (hwf : ∀ e ∈ elements, ∃ members key v, e = .object members ∧
      members.lookup "name" = some (.string key) ∧ members.lookup "type" = some v) :
    ∃ fields, read_fields false elements = some fields ∧
      fields.map (fun f => f.name) = elements.map entry_name := by
  induction elements with
  | nil => exact ⟨[], rfl, rfl⟩
  | cons e rest ih =>
    obtain ⟨members, key, v, rfl, hname, htype⟩ := hwf e (List.mem_cons_self _ _)
    obtain ⟨fs, hfs, hnames⟩ := ih (fun e he => hwf e (List.mem_cons_of_mem _ he))
    obtain ⟨f, hf, hfn⟩ := read_field_release members key v hname htype
    refine ⟨f :: fs, ?_, ?_⟩
    · simp only [read_fields, hf, hfs]
    · simp only [List.map_cons, hnames, hfn, entry_name, hname]

/-- Claim C11: for every schema document that parses to an object whose "fields" value is an
array of `n` entries, each an object with a string "name" and a "type",
`maxavro_schema_from_json` returns a schema with exactly `n` fields in which field `i`
carries the name of the `i`-th entry; a build with `SS_DEBUG` that returns gives the same
schema. -/
theorem maxavro_schema_fields_in_order (top : List (String × Json)) (elements : List Json)
    (hfields : top.lookup "fields" = some (.array elements))
    (hwf : ∀ e ∈ elements, ∃ members key v, e = .object members ∧
      members.lookup "name" = some (.string key) ∧ members.lookup "type" = some v) :
    ∃ fields,
      maxavro_schema_from_json false (some (.object top)) =
        some { fields := some fields, num_fields := some elements.length } ∧
      fields.length = elements.length ∧
      fields.map (fun f => f.name) = elements.map entry_name ∧
      (∀ i, i < elements.length →
        (fields.get? i).map (fun f => f.name) = (elements.get? i).map entry_name) ∧
      (∀ schema, maxavro_schema_from_json true (some (.object top)) = some schema →
        schema = { fields := some fields, num_fields := some elements.length }) := by
  obtain ⟨fields, hread, hnames⟩ := read_fields_release elements hwf
  have hlen : fields.length = elements.length := by
    have := congrArg List.length hnames
    simpa using this
  refine ⟨fields, ?_, hlen, hnames, ?_, ?_⟩
  · simp only [maxavro_schema_from_json, json_unpack_o, hfields, hread, json_array_size]
  · intro i _
    have := congrArg (fun l => l.get? i) hnames
    simpa [List.getElem?_map] using this
  · intro schema h
    simp only [maxavro_schema_from_json, json_unpack_o, hfields, json_array_size] at h
    split at h
    · rename_i fs hfs
      have := read_fields_debug _ _ hfs
      rw [hread] at this
      cases this
      exact (Option.some.inj h).symm
    · exact absurd h (by simp)

/-- Claim C11 at the schema document of the specification: three fields named "a", "b" and
"c", in that order. -/
theorem maxavro_schema_fields_in_order_witness :
    ∃ fields,
      maxavro_schema_from_json false (some example_schema) =
        some { fields := some fields, num_fields := some 3 } ∧
      fields.length = 3 ∧
      fields.map (fun f => f.name) = [some "a", some "b", some "c"] := by
  obtain ⟨fields, h1, h2, h3, _⟩ := maxavro_schema_fields_in_order
    [("fields", .array [
      .object [("name", .string "a"), ("type", .string "int")],
      .object [("name", .string "b"), ("type", .object [("type", .string "long")])],
      .object [("name", .string "c"), ("type", .array [.string "null", .string "string"])]])]
    [.object [("name", .string "a"), ("type", .string "int")],
      .object [("name", .string "b"), ("type", .object [("type", .string "long")])],
      .object [("name", .string "c"), ("type", .array [.string "null", .string "string"])]]
    rfl
    (by
      intro e he
      simp only [List.mem_cons, List.mem_singleton, List.not_mem_nil, or_false] at he
      rcases he with rfl | rfl | rfl
      · exact ⟨_, "a", _, rfl, rfl, rfl⟩
      · exact ⟨_, "b", _, rfl, rfl, rfl⟩
      · exact ⟨_, "c", _, rfl, rfl, rfl⟩)
  exact ⟨fields, h1, h2, h3⟩

theorem maxavro_schema_without_fields (ss_debug : Bool) (schema : Json)
    (h : json_is_array (json_unpack_o schema "fields") = false) :
    maxavro_schema_from_json ss_debug (some schema) = some empty_schema := by
  cases hf : json_unpack_o schema "fields" with
  | none => simp only [maxavro_schema_from_json, hf, json_array_size, read_fields, empty_schema]
  | some v =>
    rw [hf] at h
    cases v with
    | array elements => exact absurd h (by simp [json_is_array])
    | _ => simp only [maxavro_schema_from_json, hf, json_array_size, read_fields, empty_schema]

/-- Claim C12, the code at documents without a "fields" array: for `{}`, for
`{"name":"x"}` and for `{"fields":5}` the function does not fail, it returns a schema with
zero fields, in every build. -/
theorem schema_without_fields_is_empty :
    (∀ ss_debug, maxavro_schema_from_json ss_debug (some (.object [])) = some empty_schema) ∧
    (∀ ss_debug, maxavro_schema_from_json ss_debug (some (.object [("name", .string "x")])) =
      some empty_schema) ∧
    (∀ ss_debug, maxavro_schema_from_json ss_debug (some (.object [("fields", .integer 5)])) =
      some empty_schema) ∧
    empty_schema.num_fields = some 0 :=
  ⟨fun d => maxavro_schema_without_fields d _ rfl,
    fun d => maxavro_schema_without_fields d _ rfl,
    fun d => maxavro_schema_without_fields d _ rfl, rfl⟩

/-- Claim C13, the code at enum fields without a symbol list: in a build without `SS_DEBUG`
the field declared by `{"type":"enum"}` and the field declared by the union
`["enum","null"]` get the type enum and the null pointer as `extra`, while the field
declared by an object with the symbols `["x","y"]` carries them; a build with `SS_DEBUG`
aborts at `ss_dassert(json_is_array(tmp))` instead. -/
theorem enum_without_symbols :
    maxavro_schema_from_json false (some (.object [("fields", .array [
        .object [("name", .string "e"), ("type", .object [("type", .string "enum")])]])])) =
      some { fields := some [{ name := some "e", extra := some none,
                               type := some MAXAVRO_TYPE_ENUM }],
             num_fields := some 1 } ∧
    maxavro_schema_from_json false (some (.object [("fields", .array [
        .object [("name", .string "u"), ("type", .array [.string "enum", .string "null"])],
        .object [("name", .string "o"), ("type", .object [("type", .string "enum"),
          ("symbols", .array [.string "x", .string "y"])])]])])) =
      some { fields := some [
               { name := some "u", extra := some none, type := some MAXAVRO_TYPE_ENUM },
               { name := some "o", extra := some (some (.array [.string "x", .string "y"])),
                 type := some MAXAVRO_TYPE_ENUM }],
             num_fields := some 2 } ∧
    maxavro_schema_from_json true (some (.object [("fields", .array [
        .object [("name", .string "e"), ("type", .object [("type", .string "enum")])]])])) =
      none ∧
    maxavro_schema_from_json true (some (.object [("fields", .array [
        .object [("name", .string "u"), ("type", .array [.string "enum", .string "null"])]])])) =
      none :=
  ⟨rfl, rfl, rfl, rfl⟩

/-! ## DATETIME unpacking is lossless -/

theorem unpack_datetime_fields (v : Nat) (hv : v < 2 ^ 64) :
    (unpack_datetime v).tm_sec = ((v % 100 : Nat) : Int) ∧
    (unpack_datetime v).tm_min = ((v / 100 % 100 : Nat) : Int) ∧
    (unpack_datetime v).tm_hour = ((v / 10 ^ 4 % 100 : Nat) : Int) ∧
    (unpack_datetime v).tm_mday = ((v / 10 ^ 6 % 100 : Nat) : Int) ∧
    (unpack_datetime v).tm_mon = ((v / 10 ^ 8 % 100 : Nat) : Int) ∧
    (unpack_datetime v).tm_year + 1900 = ((v / 10 ^ 10 : Nat) : Int) := by
  have hsub : ∀ x : Nat, x - x / 100 * 100 = x % 100 := by intro x; omega
  have hu : ∀ x : Nat, to_int (to_uint32 (x % 100)) = ((x % 100 : Nat) : Int) := by
    intro x
    have : to_uint32 (x % 100) = x % 100 := by unfold to_uint32; omega
    rw [this, to_int_of_lt _ (by omega)]
  have hy : to_uint32 (v / 100 / 100 / 100 / 100 / 100) = v / 10 ^ 10 := by
    unfold to_uint32; omega
  have hy2 : v / 10 ^ 10 < 2 ^ 31 := by omega
  refine ⟨?_, ?_, ?_, ?_, ?_, ?_⟩
  all_goals
    simp only [unpack_datetime, hsub, hu, hy, to_int_usub32 _ hy2]
    first
      | done
      | omega

/-- Claim C21: DATETIME unpacking is lossless over the whole 64-bit range. For every raw
value `v < 2^64` the second, minute, hour, day and month stored by `unpack_datetime` lie
in 0..99, and with `year = tm_year + 1900`
`((((year*100 + month)*100 + day)*100 + hour)*100 + minute)*100 + second = v`, so that two
raw values with the same components are equal. -/
theorem unpack_datetime_lossless (v : Nat) (hv : v < 2 ^ 64) :
    (0 ≤ (unpack_datetime v).tm_sec ∧ (unpack_datetime v).tm_sec < 100) ∧
    (0 ≤ (unpack_datetime v).tm_min ∧ (unpack_datetime v).tm_min < 100) ∧
    (0 ≤ (unpack_datetime v).tm_hour ∧ (unpack_datetime v).tm_hour < 100) ∧
    (0 ≤ (unpack_datetime v).tm_mday ∧ (unpack_datetime v).tm_mday < 100) ∧
    (0 ≤ (unpack_datetime v).tm_mon ∧ (unpack_datetime v).tm_mon < 100) ∧
    ((((((unpack_datetime v).tm_year + 1900) * 100 + (unpack_datetime v).tm_mon) * 100 +
        (unpack_datetime v).tm_mday) * 100 + (unpack_datetime v).tm_hour) * 100 +
        (unpack_datetime v).tm_min) * 100 + (unpack_datetime v).tm_sec = (v : Int) ∧
    (∀ w, w < 2 ^ 64 → unpack_datetime w = unpack_datetime v → w = v) ∧
    (∀ w tm tm', w < 2 ^ 64 →
      unpack_temporal_value TABLE_COL_TYPE_DATETIME w tm =
        unpack_temporal_value TABLE_COL_TYPE_DATETIME v tm' → w = v) := by
  have hrec : ∀ u, u < 2 ^ 64 →
      ((((((unpack_datetime u).tm_year + 1900) * 100 + (unpack_datetime u).tm_mon) * 100 +
        (unpack_datetime u).tm_mday) * 100 + (unpack_datetime u).tm_hour) * 100 +
        (unpack_datetime u).tm_min) * 100 + (unpack_datetime u).tm_sec = (u : Int) := by
    intro u hu
    obtain ⟨h1, h2, h3, h4, h5, h6⟩ := unpack_datetime_fields u hu
    rw [h1, h2, h3, h4, h5, h6]
    omega
  have hinj : ∀ w, w < 2 ^ 64 → unpack_datetime w = unpack_datetime v → w = v := by
    intro w hw h
    have e1 := hrec w hw
    have e2 := hrec v hv
    rw [h] at e1
    have : (w : Int) = (v : Int) := by rw [← e1, ← e2]
    exact_mod_cast this
  obtain ⟨h1, h2, h3, h4, h5, h6⟩ := unpack_datetime_fields v hv
  refine ⟨?_, ?_, ?_, ?_, ?_, hrec v hv, hinj, ?_⟩
  · rw [h1]; omega
  · rw [h2]; omega
  · rw [h3]; omega
  · rw [h4]; omega
  · rw [h5]; omega
  · intro w tm tm' hw h
    exact hinj w hw h

/-- Claim C21 at the largest 64-bit raw value, whose year part is 1844674407. -/
theorem unpack_datetime_lossless_witness :
    (2 ^ 64 - 1 : Nat) < 2 ^ 64 ∧
    ((((((unpack_datetime (2 ^ 64 - 1)).tm_year + 1900) * 100 +
        (unpack_datetime (2 ^ 64 - 1)).tm_mon) * 100 +
        (unpack_datetime (2 ^ 64 - 1)).tm_mday) * 100 +
        (unpack_datetime (2 ^ 64 - 1)).tm_hour) * 100 +
        (unpack_datetime (2 ^ 64 - 1)).tm_min) * 100 +
        (unpack_datetime (2 ^ 64 - 1)).tm_sec = ((2 ^ 64 - 1 : Nat) : Int) :=
  ⟨by norm_num, (unpack_datetime_lossless (2 ^ 64 - 1) (by norm_num)).2.2.2.2.2.1⟩

/-! ## The definition span is balanced -/

theorem scan_definition_balanced (l : List Char) :
    ∀ (depth : Int) (k0 size : Nat), 0 ≤ depth → scan_definition l depth k0 = some size →
      k0 ≤ size ∧ size - k0 < l.length ∧
      depth + nesting_depth (l.take (size - k0)) = 0 ∧
      (∀ j, j ≤ size - k0 → 0 ≤ depth + nesting_depth (l.take j)) := by
  induction l with
  | nil => intro _ _ _ _ h; simp [scan_definition] at h
  | cons c rest ih =>
    intro depth k0 size h0 h
    simp only [scan_definition] at h
    have hn : nesting_depth [] = 0 := rfl
    by_cases hneg : (if c = '(' then depth + 1 else if c = ')' then depth - 1 else depth) < 0
    · rw [if_pos hneg] at h
      cases h
      refine ⟨le_refl _, by simp, ?_, ?_⟩
      · simp only [Nat.sub_self, List.take_zero, hn]
        split_ifs at hneg <;> omega
      · intro j hj
        have : j = 0 := by omega
        subst this
        simp only [List.take_zero, hn]
        omega
    · rw [if_neg hneg] at h
      obtain ⟨h1, h2, h3, h4⟩ := ih _ _ _ (by omega) h
      have e : size - k0 = (size - (k0 + 1)) + 1 := by omega
      refine ⟨by omega, by simp only [List.length_cons]; omega, ?_, ?_⟩
      · rw [e, List.take_succ_cons, nesting_depth_cons]
        split_ifs at h3 ⊢ <;> omega
      · intro j hj
        cases j with
        | zero => simp only [List.take_zero, hn]; omega
        | succ j =>
          have := h4 j (by omega)
          rw [List.take_succ_cons, nesting_depth_cons]
          split_ifs at this ⊢ <;> omega

theorem takeWhile_ne_paren_spec (sql : List Char) :
    '(' ∉ sql.takeWhile (fun c => c != '(') ∧
    ((sql.takeWhile (fun c => c != '(')).length < sql.length →
      sql.get? (sql.takeWhile (fun c => c != '(')).length = some '(') ∧
    sql.take (sql.takeWhile (fun c => c != '(')).length = sql.takeWhile (fun c => c != '(') := by
  induction sql with
  | nil => simp
  | cons x xs ih =>
    by_cases hx : x = '('
    · subst hx
      simp [List.takeWhile_cons]
    · have hx' : (x != '(') = true := by simpa using hx
      obtain ⟨h1, h2, h3⟩ := ih
      simp only [List.takeWhile_cons, hx', if_true, List.length_cons, List.mem_cons, not_or,
        List.take_succ_cons]
      refine ⟨⟨Ne.symm hx, h1⟩, ?_, by rw [h3]⟩
      intro hlt
      have := h2 (by omega)
      simpa using this

/-- Claim C22: whenever `get_table_definition` succeeds, the span it returns is balanced: it
holds as many `(` as `)`, no prefix of it holds more `)` than `(`, the character right
before the span is the first `(` of the statement and the character right after it is a
`)` inside the statement. -/
theorem get_table_definition_balanced (sql : List Char) (start size : Nat)
    (h : get_table_definition sql = some (start, size)) :
    ((sql.drop start).take size).count '(' = ((sql.drop start).take size).count ')' ∧
    (∀ j, j ≤ size →
      (((sql.drop start).take size).take j).count ')' ≤
        (((sql.drop start).take size).take j).count '(') ∧
    1 ≤ start ∧ sql.get? (start - 1) = some '(' ∧ '(' ∉ sql.take (start - 1) ∧
    start + size < sql.length ∧ sql.get? (start + size) = some ')' ∧
    ((sql.drop start).take size).length = size := by
  unfold get_table_definition at h
  simp only at h
  by_cases hlt : ((sql.takeWhile (fun c => c != '(')).length : Int) < (sql.length : Int) - 2
  · rw [if_pos hlt] at h
    cases hs : scan_definition (sql.drop ((sql.takeWhile (fun c => c != '(')).length + 1)) 0 0 with
    | none => rw [hs] at h; exact absurd h (by simp)
    | some s =>
      rw [hs] at h
      simp only [Option.some.injEq, Prod.mk.injEq] at h
      obtain ⟨hstart, hsize⟩ := h
      subst hsize
      obtain ⟨hno, hget, htk⟩ := takeWhile_ne_paren_spec sql
      obtain ⟨_, hin, hzero, hpre⟩ := scan_definition_balanced _ _ _ _ (le_refl _) hs
      obtain ⟨_, hclose⟩ := scan_definition_stops _ _ _ _ (le_refl _) hs
      rw [hstart] at hin hzero hpre hclose
      simp only [Nat.sub_zero, zero_add] at hin hzero hpre hclose
      have hlen : (sql.drop start).length = sql.length - start := List.length_drop _ _
      refine ⟨?_, ?_, by omega, ?_, ?_, by omega, ?_, ?_⟩
      · unfold nesting_depth at hzero
        omega
      · intro j hj
        have := hpre j hj
        have e : ((sql.drop start).take s).take j = (sql.drop start).take j := by
          rw [List.take_take, Nat.min_eq_left hj]
        rw [e]
        unfold nesting_depth at this
        omega
      · rw [← hstart, Nat.add_sub_cancel]
        exact hget (by omega)
      · rw [← hstart, Nat.add_sub_cancel, htk]
        exact hno
      · rw [List.get?_eq_getElem?, List.getElem?_drop] at hclose
        rw [List.get?_eq_getElem?]
        exact hclose
      · rw [List.length_take, hlen]
        omega
  · rw [if_neg hlt] at h
    exact absurd h (by simp)

/-- Claim C22 at the statement of the specification: the span "id INT, name VARCHAR(20)"
starts at 20 behind the first `(` and ends before the `)` at 44. -/
theorem get_table_definition_balanced_witness :
    get_table_definition "CREATE TABLE db.t1 (id INT, name VARCHAR(20))".toList =
      some (20, 24) ∧
    (("CREATE TABLE db.t1 (id INT, name VARCHAR(20))".toList.drop 20).take 24).count '(' =
      (("CREATE TABLE db.t1 (id INT, name VARCHAR(20))".toList.drop 20).take 24).count ')' ∧
    "CREATE TABLE db.t1 (id INT, name VARCHAR(20))".toList.get? (20 + 24) = some ')' :=
  have h := get_table_definition_balanced
    "CREATE TABLE db.t1 (id INT, name VARCHAR(20))".toList 20 24 (by decide)
  ⟨by decide, h.1, h.2.2.2.2.2.2.1⟩

end MaxScale
